import Mathlib

set_option maxHeartbeats 2000000
set_option maxRecDepth 8000

/-!
Verification development for the OCR claim-extraction backend.

Strings are modelled as `List Char`; Python floats appearing in the services
are modelled as rationals (`ℚ`), so `round(x, 2)` becomes an exact
round-half-to-even on rationals.  Python regular expressions used by the
services are embedded as explicit backtracking scanners on character lists,
following the semantics of CPython's `re` module (ASCII inputs).
-/

namespace OCRSpec

/-- Characters matched by Python regex `\w` (ASCII inputs). -/
def isWordChar (c : Char) : Bool := c.isAlphanum || c = '_'

/-- Whitespace recognised by Python `str.strip` and regex `\s` (ASCII). -/
def pyIsSpace (c : Char) : Bool :=
  c = ' ' || c = '\t' || c = '\n' || c = '\r' || c = '\x0b' || c = '\x0c'

/-- `str.lstrip()` -/
def pyLstrip (s : List Char) : List Char := s.dropWhile pyIsSpace

/-- `str.rstrip()` -/
def pyRstrip (s : List Char) : List Char := (s.reverse.dropWhile pyIsSpace).reverse

/-- `str.strip()` -/
def pyStrip (s : List Char) : List Char := pyRstrip (pyLstrip s)

/-- `str.lstrip(cs)` for an explicit character set. -/
def pyLstripSet (cs : List Char) (s : List Char) : List Char :=
  s.dropWhile (fun c => cs.contains c)

/-- `str.rstrip(cs)` for an explicit character set. -/
def pyRstripSet (cs : List Char) (s : List Char) : List Char :=
  (s.reverse.dropWhile (fun c => cs.contains c)).reverse

/-- `str.strip(cs)` for an explicit character set. -/
def pyStripSet (cs : List Char) (s : List Char) : List Char :=
  pyRstripSet cs (pyLstripSet cs s)

/-- Split on newline, keeping the segment after the final newline. -/
def splitNlAux : List Char → List Char → List (List Char)
  | [], acc => [acc.reverse]
  | '\n' :: rest, acc => acc.reverse :: splitNlAux rest []
  | c :: rest, acc => splitNlAux rest (c :: acc)

/-- Python `str.splitlines()` restricted to `\n` separators: a trailing
newline does not produce a final empty line, and `"".splitlines() = []`. -/
def pySplitLines (s : List Char) : List (List Char) :=
  if s = [] then []
  else if s.getLast? = some '\n' then splitNlAux s.dropLast []
  else splitNlAux s []

/-- Numeric value of an ASCII digit character. -/
def digitVal (c : Char) : Nat := c.toNat - 48

/-- ASCII digit character of a value `k ≤ 9`. -/
def digitChar (k : Nat) : Char := Char.ofNat (48 + k)

/-- Decimal value of a digit string (most significant first). -/
def natOfDigits (ds : List Char) : Nat := ds.foldl (fun a c => 10 * a + digitVal c) 0

/-- Uppercase one ASCII character (`str.upper`). -/
def upperC (c : Char) : Char := c.toUpper

/-- `str.upper()` -/
def pyUpper (s : List Char) : List Char := s.map upperC

/-- `str.lower()` -/
def pyLower (s : List Char) : List Char := s.map Char.toLower

/-- Case-insensitive prefix match: if the uppercased input starts with the
(uppercase) pattern `pat`, return the remaining input. -/
def ciTake : List Char → List Char → Option (List Char)
  | [], s => some s
  | _ :: _, [] => none
  | p :: ps, c :: cs => if upperC c = p then ciTake ps cs else none

/-- Exact prefix match, returning the rest of the input. -/
def litTake : List Char → List Char → Option (List Char)
  | [], s => some s
  | _ :: _, [] => none
  | p :: ps, c :: cs => if c = p then litTake ps cs else none

/-- `needle` occurs contiguously in `hay` (Python `needle in hay`). -/
def containsSub (hay needle : List Char) : Bool :=
  match litTake needle hay with
  | some _ => true
  | none =>
    match hay with
    | [] => false
    | _ :: t => containsSub t needle

/-- Exactly `n` characters, all digits. -/
def takeDigits : Nat → List Char → Option (List Char × List Char)
  | 0, s => some ([], s)
  | _ + 1, [] => none
  | n + 1, c :: cs =>
    if c.isDigit then (takeDigits n cs).map (fun p => (c :: p.1, p.2)) else none

/-- Regex `\b` holds to the right of a position: next char absent or non-word. -/
def bdryR : List Char → Bool
  | [] => true
  | c :: _ => !isWordChar c

/-- Regex `\b` holds between the previous character and a word character. -/
def bdryL : Option Char → Bool
  | none => true
  | some p => !isWordChar p

/-- First index of a character (Python `str.find`, as an `Option`). -/
def findIdx : List Char → Char → Option Nat
  | [], _ => none
  | c :: cs, x => if c = x then some 0 else (findIdx cs x).map (· + 1)

/-- Last index of a character (Python `str.rfind`, as an `Option`). -/
def rfindIdx (s : List Char) (x : Char) : Option Nat :=
  (findIdx s.reverse x).map (fun i => s.length - 1 - i)

/-- First result of an option-valued function over a list. -/
def firstSome {α β : Type} (f : α → Option β) : List α → Option β
  | [] => none
  | a :: rest =>
    match f a with
    | some b => some b
    | none => firstSome f rest

/-- Case-insensitive prefix match returning the consumed input characters and
the rest. -/
def ciTakePair : List Char → List Char → Option (List Char × List Char)
  | [], s => some ([], s)
  | _ :: _, [] => none
  | p :: ps, c :: cs =>
    if upperC c = p then (ciTakePair ps cs).map (fun q => (c :: q.1, q.2)) else none

/-! ## Table extractor (`app/services/table_extractor.py`)

Regex patterns are embedded as explicit scanners with CPython backtracking
semantics.  Each scanner is named after the compiled pattern it models. -/

/-- Regex `\s+`: at least one whitespace character, consumed greedily. -/
def wsPlus : List Char → Option (List Char)
  | c :: r => if pyIsSpace c then some (r.dropWhile pyIsSpace) else none
  | [] => none

/-- `_LINE_START = ^(\d{1,2})\s+`, applied with `.match`: returns the captured
line number and the input after the matched whitespace. -/
def lineStartMatch (s : List Char) : Option (Nat × List Char) :=
  match s with
  | [] => none
  | c1 :: rest1 =>
    if c1.isDigit then
      match rest1 with
      | [] => none
      | c2 :: rest2 =>
        if c2.isDigit then
          match wsPlus rest2 with
          | some r => some (natOfDigits [c1, c2], r)
          | none => (wsPlus rest1).map (fun r => (natOfDigits [c1], r))
        else (wsPlus rest1).map (fun r => (natOfDigits [c1], r))
    else none

/-- One greedy attempt of `\d{k}` followed by `\b`. -/
def digitsBdry (k : Nat) (s : List Char) : Option (List Char × List Char) :=
  match takeDigits k s with
  | some (g, r) => if bdryR r then some (g, r) else none
  | none => none

/-- `\d{4,6}\b` at the current position, greedy (6, then 5, then 4 digits). -/
def tariffAt (s : List Char) : Option (List Char × List Char) :=
  match digitsBdry 6 s with
  | some x => some x
  | none =>
    match digitsBdry 5 s with
    | some x => some x
    | none => digitsBdry 4 s

/-- `_TARIFF_CODE = \b(\d{4,6})\b`, applied with `.search`: first match,
returning the captured code and the input after it. -/
def tariffSearch : Option Char → List Char → Option (List Char × List Char)
  | _, [] => none
  | prev, c :: rest =>
    if bdryL prev && c.isDigit then
      match tariffAt (c :: rest) with
      | some x => some x
      | none => tariffSearch (some c) rest
    else tariffSearch (some c) rest

/-- `[/\-]` separator. -/
def sepTake : List Char → Option (Char × List Char)
  | c :: r => if c = '/' || c = '-' then some (c, r) else none
  | [] => none

/-- `\d{2,4}\b`, greedy (4, then 3, then 2 digits). -/
def dateTailAt (s : List Char) : Option (List Char × List Char) :=
  match digitsBdry 4 s with
  | some x => some x
  | none =>
    match digitsBdry 3 s with
    | some x => some x
    | none => digitsBdry 2 s

/-- `\d{2}[/\-]\d{2}[/\-]\d{2,4}\b` at the current position. -/
def dateAt (s : List Char) : Option (List Char × List Char) := do
  let (d1, r1) ← takeDigits 2 s
  let (s1, r2) ← sepTake r1
  let (d2, r3) ← takeDigits 2 r2
  let (s2, r4) ← sepTake r3
  let (y, r5) ← dateTailAt r4
  pure (d1 ++ s1 :: (d2 ++ s2 :: y), r5)

/-- `_DATE = \b(\d{2}[/\-]\d{2}[/\-]\d{2,4})\b`, applied with `.search`:
returns (text before the match, captured date, text after the match). -/
def dateSearch : Option Char → List Char → List Char → Option (List Char × List Char × List Char)
  | _, _, [] => none
  | prev, pre, c :: rest =>
    if bdryL prev && c.isDigit then
      match dateAt (c :: rest) with
      | some (g, post) => some (pre.reverse, g, post)
      | none => dateSearch (some c) (c :: pre) rest
    else dateSearch (some c) (c :: pre) rest

/-- `[1-9]\d?\b` at the current position (greedy two digits, then one). -/
def qtyAt (s : List Char) : Option (Nat × List Char) :=
  match s with
  | [] => none
  | [c1] => if c1.isDigit && c1 ≠ '0' then some (natOfDigits [c1], []) else none
  | c1 :: c2 :: r =>
    if c1.isDigit && c1 ≠ '0' then
      if c2.isDigit && bdryR r then some (natOfDigits [c1, c2], r)
      else if bdryR (c2 :: r) then some (natOfDigits [c1], c2 :: r)
      else none
    else none

/-- `_QTY = \b([1-9]\d?)\b`, applied with `.search`: returns the value and
the text before / after the match (the caller removes the matched span). -/
def qtySearch : Option Char → List Char → List Char → Option (Nat × List Char × List Char)
  | _, _, [] => none
  | prev, pre, c :: rest =>
    if bdryL prev && c.isDigit && c ≠ '0' then
      match qtyAt (c :: rest) with
      | some (v, post) => some (v, pre.reverse, post)
      | none => qtySearch (some c) (c :: pre) rest
    else qtySearch (some c) (c :: pre) rest

/-- Candidates for `\d{1,3}` in greedy order (3 digits first). -/
def take1to3 (s : List Char) : List (List Char × List Char) :=
  (match takeDigits 3 s with | some x => [x] | none => []) ++
  (match takeDigits 2 s with | some x => [x] | none => []) ++
  (match takeDigits 1 s with | some x => [x] | none => [])

/-- Candidates for `(?:,\d{3})*` in greedy order (most repetitions first). -/
def commaGroupCands : List Char → List (List Char × List Char)
  | ',' :: d1 :: d2 :: d3 :: r =>
    if d1.isDigit && d2.isDigit && d3.isDigit then
      ((commaGroupCands r).map (fun p => (',' :: d1 :: d2 :: d3 :: p.1, p.2))) ++
        [([], ',' :: d1 :: d2 :: d3 :: r)]
    else [([], ',' :: d1 :: d2 :: d3 :: r)]
  | s => [([], s)]

/-- `\.\d{2}\b` at the current position. -/
def dotTwo : List Char → Option (List Char × List Char)
  | '.' :: a :: b :: r =>
    if a.isDigit && b.isDigit && bdryR r then some (['.', a, b], r) else none
  | _ => none

/-- `\d{1,3}(?:,\d{3})*\.\d{2}\b` at the current position, with regex
backtracking over the two variable-width pieces. -/
def amountAt (s : List Char) : Option (List Char × List Char) :=
  firstSome
    (fun p1 =>
      firstSome
        (fun p2 => (dotTwo p2.2).map (fun p3 => (p1.1 ++ p2.1 ++ p3.1, p3.2)))
        (commaGroupCands p1.2))
    (take1to3 s)

/-- Scanner for `_AMOUNT = \b([\d]{1,3}(?:,\d{3})*\.\d{2})\b`: returns both
`findall` (the matched groups, left to right, non-overlapping) and
`sub("", ·)` (the input with the matched spans removed) in one pass.
Fuel-indexed; the top-level wrapper supplies enough fuel. -/
def amountScanF : Nat → Option Char → List Char → List (List Char) × List Char
  | 0, _, s => ([], s)
  | fuel + 1, prev, s =>
    match s with
    | [] => ([], [])
    | c :: rest =>
      if bdryL prev && c.isDigit then
        match amountAt (c :: rest) with
        | some (g, r) =>
          let p := amountScanF fuel (some (g.getLastD c)) r
          (g :: p.1, p.2)
        | none =>
          let p := amountScanF fuel (some c) rest
          (p.1, c :: p.2)
      else
        let p := amountScanF fuel (some c) rest
        (p.1, c :: p.2)

/-- `_AMOUNT.findall` and `_AMOUNT.sub("", ·)` on a string. -/
def amountScan (s : List Char) : List (List Char) × List Char :=
  amountScanF s.length none s

/-- `float(a.replace(",", ""))` for a matched amount group: the group always
has the shape `digits "." digit digit` after comma removal. -/
def ratOfAmount (g : List Char) : ℚ :=
  let noComma := g.filter (fun c => c != ',')
  let ip := noComma.takeWhile (fun c => c != '.')
  let fp := (noComma.dropWhile (fun c => c != '.')).drop 1
  (natOfDigits ip : ℚ) + (natOfDigits fp : ℚ) / 100

/-- The keyword alternation of `_HEADER_KEYWORDS`, in source order. -/
def headerKeywordList : List (List Char) :=
  [['L', 'I', 'N', 'E'], ['T', 'A', 'R', 'I', 'F', 'F'],
   ['D', 'E', 'S', 'C', 'R', 'I', 'P', 'T', 'I', 'O', 'N'],
   ['Q', 'T', 'Y'], ['Q', 'U', 'A', 'N', 'T', 'I', 'T', 'Y'],
   ['U', 'N', 'I', 'T'], ['P', 'R', 'I', 'C', 'E'],
   ['A', 'M', 'O', 'U', 'N', 'T'], ['D', 'A', 'T', 'E'],
   ['T', 'O', 'O', 'T', 'H'], ['S', 'E', 'R', 'V', 'I', 'C', 'E']]

/-- One keyword of the alternation followed by `\b`, at the current position. -/
def kwAt (s : List Char) : Option (List Char × List Char) :=
  firstSome
    (fun kw =>
      match ciTakePair kw s with
      | some (consumed, r) => if bdryR r then some (consumed, r) else none
      | none => none)
    headerKeywordList

/-- Fuel-indexed scanner counting `_HEADER_KEYWORDS.findall` hits. -/
def headerHitsF : Nat → Option Char → List Char → Nat
  | 0, _, _ => 0
  | fuel + 1, prev, s =>
    match s with
    | [] => 0
    | c :: rest =>
      if bdryL prev then
        match kwAt (c :: rest) with
        | some (consumed, r) => 1 + headerHitsF fuel (some (consumed.getLastD c)) r
        | none => headerHitsF fuel (some c) rest
      else headerHitsF fuel (some c) rest

/-- `len(_HEADER_KEYWORDS.findall(line))`. -/
def headerHits (s : List Char) : Nat := headerHitsF s.length none s

/-- `_TOTAL_ROW.match`: `^\s*(?:total|sub[\-\s]?total|grand\s+total|amount\s+due|balance)`,
case-insensitive. -/
def totalRowMatch (s : List Char) : Bool :=
  let t := s.dropWhile pyIsSpace
  (ciTake ['T', 'O', 'T', 'A', 'L'] t).isSome ||
  (match ciTake ['S', 'U', 'B'] t with
   | some r =>
     (match r with
      | c :: r2 =>
        (if c = '-' || pyIsSpace c then (ciTake ['T', 'O', 'T', 'A', 'L'] r2).isSome else false) ||
          (ciTake ['T', 'O', 'T', 'A', 'L'] r).isSome
      | [] => false)
   | none => false) ||
  (match ciTake ['G', 'R', 'A', 'N', 'D'] t with
   | some r =>
     match wsPlus r with
     | some r2 => (ciTake ['T', 'O', 'T', 'A', 'L'] r2).isSome
     | none => false
   | none => false) ||
  (match ciTake ['A', 'M', 'O', 'U', 'N', 'T'] t with
   | some r =>
     match wsPlus r with
     | some r2 => (ciTake ['D', 'U', 'E'] r2).isSome
     | none => false
   | none => false) ||
  (ciTake ['B', 'A', 'L', 'A', 'N', 'C', 'E'] t).isSome

/-- `_NUMERIC_ROW.match`: `^[\d\s\|,\.]+$`. -/
def numericRowMatch (s : List Char) : Bool :=
  !s.isEmpty && s.all (fun c => c.isDigit || pyIsSpace c || c = '|' || c = ',' || c = '.')

/-- The apostrophe character. -/
def apoC : Char := Char.ofNat 39

/-- Tail of `DOCTOR'?S?\s+SIGN` after the literal `DOCTOR`, with the two
optional pieces tried greedily. -/
def doctorSignAfter (r : List Char) : Bool :=
  let tryTail : List Char → Bool := fun x =>
    match wsPlus x with
    | some r2 => (ciTake ['S', 'I', 'G', 'N'] r2).isSome
    | none => false
  let withS : List Char → Bool := fun x =>
    (match x with
     | c :: r2 => (if upperC c = 'S' then tryTail r2 else false) || tryTail x
     | [] => false)
  match r with
  | c :: r2 => (if c = apoC then withS r2 else false) || withS r
  | [] => false

/-- `re.match(r"^(ICD|DIAGNOSIS|COUNCIL|DOCTOR'?S?\s+SIGN|AUTHORIS)", ·, IGNORECASE)`
used to end the table region. -/
def terminalMatch (s : List Char) : Bool :=
  (ciTake ['I', 'C', 'D'] s).isSome ||
  (ciTake ['D', 'I', 'A', 'G', 'N', 'O', 'S', 'I', 'S'] s).isSome ||
  (ciTake ['C', 'O', 'U', 'N', 'C', 'I', 'L'] s).isSome ||
  (match ciTake ['D', 'O', 'C', 'T', 'O', 'R'] s with
   | some r => doctorSignAfter r
   | none => false) ||
  (ciTake ['A', 'U', 'T', 'H', 'O', 'R', 'I', 'S'] s).isSome

/-- Index of the first line with at least two header-keyword hits. -/
def findHeaderIdx : List (List Char) → Option Nat
  | [] => none
  | l :: rest => if 2 ≤ headerHits l then some 0 else (findHeaderIdx rest).map (· + 1)

/-- Region collection after the header: stop on two consecutive blank lines
or on a terminal line; stripped non-blank lines are collected. -/
def collectRegion : List (List Char) → Nat → List (List Char)
  | [], _ => []
  | l :: rest, streak =>
    let st := pyStrip l
    if st = [] then
      if 2 ≤ streak + 1 then [] else collectRegion rest (streak + 1)
    else if terminalMatch st then []
    else st :: collectRegion rest 0

/-- `TableExtractor._detect_table`. -/
def detectTable (lines : List (List Char)) : List (List Char) × List Char :=
  match findHeaderIdx lines with
  | none => ([], [])
  | some i => (collectRegion (lines.drop (i + 1)) 0, lines.getD i [])

/-- `TableExtractor._merge_continuations` (accumulator holds merged rows in
reverse). -/
def mergeAux : List (List Char) → List (List Char) → List (List Char)
  | [], acc => acc.reverse
  | l :: rest, acc =>
    if l = [] then mergeAux rest acc
    else if totalRowMatch l || numericRowMatch l then mergeAux rest (l :: acc)
    else if (lineStartMatch l).isSome then mergeAux rest (l :: acc)
    else
      match acc with
      | [] => mergeAux rest acc
      | m :: ms => mergeAux rest ((m ++ ' ' :: l) :: ms)

/-- `TableExtractor._merge_continuations`. -/
def mergeContinuations (lines : List (List Char)) : List (List Char) := mergeAux lines []

/-- All decimal amounts found in a row, as rationals. -/
def rowAmounts (row : List Char) : List ℚ := ((amountScan row).1).map ratOfAmount

/-- Python `max` on a list (as an `Option`). -/
def listMax : List ℚ → Option ℚ
  | [] => none
  | a :: r => some (r.foldl max a)

/-- Reverse scan of `_extract_claimed_total`, on the already-reversed rows. -/
def claimedTotalAux : List (List Char) → Option ℚ
  | [] => none
  | row :: rest =>
    if totalRowMatch row || numericRowMatch row then
      match listMax (rowAmounts row) with
      | some m => some m
      | none => claimedTotalAux rest
    else claimedTotalAux rest

/-- `TableExtractor._extract_claimed_total`. -/
def extractClaimedTotal (rows : List (List Char)) : Option ℚ :=
  claimedTotalAux rows.reverse

/-- `TableExtractor._is_item_row`. -/
def isItemRow (row : List Char) : Bool :=
  (lineStartMatch row).isSome && !totalRowMatch row

/-- `re.sub(r"[\|\s]+", " ", ·)`: each maximal run of pipes / whitespace
becomes a single space. -/
def collapsePipeWSAux : Bool → List Char → List Char
  | _, [] => []
  | inRun, c :: rest =>
    if c = '|' || pyIsSpace c then
      if inRun then collapsePipeWSAux true rest else ' ' :: collapsePipeWSAux true rest
    else c :: collapsePipeWSAux false rest

/-- `re.sub(r"[\|\s]+", " ", ·)`. -/
def collapsePipeWS (s : List Char) : List Char := collapsePipeWSAux false s

/-- Fuel-indexed `re.sub(r"\s{2,}", " ", ·)`: a maximal whitespace run of
length at least two becomes one space; single whitespace is kept as is. -/
def cmwsF : Nat → List Char → List Char
  | 0, s => s
  | _ + 1, [] => []
  | fuel + 1, c :: rest =>
    if pyIsSpace c then
      match rest with
      | c2 :: _ =>
        if pyIsSpace c2 then ' ' :: cmwsF fuel (rest.dropWhile pyIsSpace)
        else c :: cmwsF fuel rest
      | [] => [c]
    else c :: cmwsF fuel rest

/-- `re.sub(r"\s{2,}", " ", ·)`. -/
def collapseMultiWS (s : List Char) : List Char := cmwsF s.length s

/-- `re.split(r"[/\-]", ·)`. -/
def splitSepsAux : List Char → List Char → List (List Char)
  | [], acc => [acc.reverse]
  | c :: rest, acc =>
    if c = '/' || c = '-' then acc.reverse :: splitSepsAux rest []
    else splitSepsAux rest (c :: acc)

/-- `re.split(r"[/\-]", ·)`. -/
def splitSeps (s : List Char) : List (List Char) := splitSepsAux s []

/-- `re.search(r"\b(\d)\s*$", stripped)`: on an already-stripped string this
is a lone digit at the very end (preceded by a non-word character or the
start of the string). -/
def eolDigit (s : List Char) : Option Char :=
  match s.reverse with
  | [] => none
  | c :: rest =>
    if c.isDigit then
      match rest with
      | [] => some c
      | p :: _ => if isWordChar p then none else some c
    else none

/-- The OCR-split-year fix of `_parse_item_row` (source lines 284–292): when
the parsed year segment has exactly three digits and a lone digit stands at
the end of the post-date text, append it to the date and remove it (via
`rfind`) from the post-date text. -/
def fixSplitYear (rawDate postDate : List Char) : List Char × List Char :=
  let yearPart := (splitSeps rawDate).getLastD []
  if yearPart.length = 3 then
    match eolDigit (pyStrip postDate) with
    | some d =>
      let newPost :=
        match rfindIdx postDate d with
        | some i => pyRstrip (postDate.take i)
        | none => pyRstrip postDate.dropLast
      (rawDate ++ [d], newPost)
    | none => (rawDate, postDate)
  else (rawDate, postDate)

/-- `table_extractor.LineItem` (amounts as rationals; the internal
`_all_amounts` list is kept, as the column-assignment rule reads it). -/
structure LineItem where
  line_number : Option Nat
  tariff_code : Option (List Char)
  description : Option (List Char)
  date : Option (List Char)
  quantity : Option ℚ
  unit_price : Option ℚ
  amount : Option ℚ
  all_amounts : List ℚ
deriving DecidableEq

/-- Step 7 of `_parse_item_row`: the fixed column order
UNIT PRICE | FEE CHARGED | AWARD | SHORTFALL | EXCESS, read off the ordered
amounts list. -/
def assignColumns (amounts : List ℚ) : Option ℚ × Option ℚ :=
  let up := if 1 ≤ amounts.length then amounts[0]? else none
  let am :=
    if 3 ≤ amounts.length then amounts[2]?
    else if amounts.length = 2 then amounts[1]?
    else if amounts.length = 1 then amounts[0]?
    else none
  (up, am)

/-- `TableExtractor._parse_item_row`.  The Python `try` block contains no
operation that can raise on any input, so the embedded parser is total. -/
def parseItemRow (row : List Char) : LineItem :=
  let p1 := lineStartMatch row
  let lineNo := p1.map (·.1)
  let rest := match p1 with | some q => q.2 | none => row
  let tc := tariffSearch none rest
  let tariff := tc.map (·.1)
  let afterTc := match tc with | some q => pyLstripSet [' ', '|'] q.2 | none => rest
  let dm := dateSearch none [] afterTc
  let preDate0 := match dm with | some q => q.1 | none => afterTc
  let postDate0 := match dm with | some q => q.2.2 | none => []
  let fixed : Option (List Char) × List Char :=
    match dm with
    | some q =>
      let fy := fixSplitYear q.2.1 postDate0
      (some fy.1, fy.2)
    | none => (none, postDate0)
  let rawDate := fixed.1
  let postDate := fixed.2
  let qm := qtySearch none [] preDate0
  let quantity := qm.map (fun q => (q.1 : ℚ))
  let preDate := match qm with | some q => q.2.1 ++ q.2.2 | none => preDate0
  let scanned := amountScan postDate
  let amounts := scanned.1.map ratOfAmount
  let contin := pyStrip (collapsePipeWS scanned.2)
  let desc0 := pyStrip (collapsePipeWS preDate)
  let desc1 := if contin ≠ [] then pyStrip (desc0 ++ ' ' :: contin) else desc0
  let desc := pyStrip (pyStripSet ['/', ' ', ','] (collapseMultiWS desc1))
  let cols := assignColumns amounts
  ⟨lineNo, tariff, (if desc ≠ [] then some desc else none), rawDate,
    quantity, cols.1, cols.2, amounts⟩

/-- Round half to even on rationals (Python `round` on an exact value). -/
def rndHalfEven (q : ℚ) : ℤ :=
  let f := ⌊q⌋
  if q - f < 1 / 2 then f
  else if q - f > 1 / 2 then f + 1
  else if 2 ∣ f then f else f + 1

/-- Python `round(x, 2)` on the idealised (exact rational) value. -/
def round2 (q : ℚ) : ℚ := (rndHalfEven (100 * q) : ℚ) / 100

/-- Python truthiness of an `Optional[float]`. -/
def truthyOptQ : Option ℚ → Bool
  | none => false
  | some q => if q = 0 then false else true

/-- Python truthiness of an `Optional[str]`. -/
def truthyOptStr : Option (List Char) → Bool
  | none => false
  | some s => !s.isEmpty

/-- Decimal rendering of a rational for diagnostic messages (the `:.2f`
formatting of the source is abstracted; the claims only inspect whether a
message is present). -/
def showQ (q : ℚ) : List Char := (toString q).toList

def msgNoClaimed : List Char := ("No claimed total found — cannot verify sum").toList

def msgNoComputed : List Char := ("No line item amounts extracted — cannot verify sum").toList

def totalMismatchMsg (computed claimed diff : ℚ) : List Char :=
  ("Total mismatch: computed ").toList ++ showQ computed ++
    (" ≠ claimed ").toList ++ showQ claimed ++ (" (Δ ").toList ++ showQ diff ++ (")").toList

def lineMismatchMsg (ln : Option Nat) (q up expected am : ℚ) : List Char :=
  ("Line ").toList ++ (match ln with | some n => (toString n).toList | none => ("None").toList) ++
    (": qty(").toList ++ showQ q ++ (") × unit(").toList ++ showQ up ++
    (") = ").toList ++ showQ expected ++ (" ≠ amount(").toList ++ showQ am ++ (")").toList

/-- `[li.amount for li in items if li.amount is not None]`. -/
def awardedOf (items : List LineItem) : List ℚ :=
  (items.filter (fun li => li.amount ≠ none)).map (fun li => li.amount.getD 0)

/-- `TableExtractor._validate`: returns
(computed_total, total_match, discrepancies). -/
def validateItems (items : List LineItem) (claimed : Option ℚ) :
    Option ℚ × Bool × List (List Char) :=
  let awarded := awardedOf items
  let computed := if awarded ≠ [] then some (round2 awarded.sum) else none
  let base : Bool × List (List Char) :=
    match computed, claimed with
    | some c, some k =>
      let diff := |c - k|
      if diff < 1 / 50 then (true, [])
      else (false, [totalMismatchMsg c k diff])
    | _, _ =>
      if claimed = none then (false, [msgNoClaimed]) else (false, [msgNoComputed])
  let perItem := items.filterMap (fun li =>
    if truthyOptQ li.quantity && truthyOptQ li.unit_price && truthyOptQ li.amount then
      let q := li.quantity.getD 0
      let up := li.unit_price.getD 0
      let am := li.amount.getD 0
      let expected := round2 (q * up)
      if |expected - am| > 1 / 50 then some (lineMismatchMsg li.line_number q up expected am)
      else none
    else none)
  (computed, base.1, base.2 ++ perItem)

/-- `TableExtractor._score_confidence`. -/
def scoreConfidence (items : List LineItem) (totalMatch : Bool) : ℚ :=
  if items = [] then 0
  else
    let n : ℚ := items.length
    let hasDesc := ((items.filter (fun li => truthyOptStr li.description)).length : ℚ) / n
    let hasAmount := ((items.filter (fun li => truthyOptQ li.amount)).length : ℚ) / n
    let hasTariff := ((items.filter (fun li => truthyOptStr li.tariff_code)).length : ℚ) / n
    let bonus : ℚ := if totalMatch then 1 / 5 else 0
    round2 (min (hasDesc * (3 / 10) + hasAmount * (3 / 10) + hasTariff * (1 / 5) + bonus) 1)

/-- `table_extractor.TableResult`. -/
structure TableResult where
  line_items : List LineItem
  claimed_total : Option ℚ
  computed_total : Option ℚ
  total_match : Bool
  discrepancies : List (List Char)
  table_detected : Bool
  confidence : ℚ
deriving DecidableEq

def noTableMsg : List Char := ("No line-item table detected in document").toList

/-- `TableExtractor.extract`.  Total on every input string: the "never
raises" part of the contract is the totality of this definition. -/
def extract (ocr : List Char) : TableResult :=
  let lines := (pySplitLines ocr).map pyRstrip
  let dt := detectTable lines
  if dt.1 = [] then
    ⟨[], none, none, false, [noTableMsg], false, 0⟩
  else
    let merged := mergeContinuations dt.1
    let claimed := extractClaimedTotal merged
    let itemRows := merged.filter isItemRow
    let lineItems := itemRows.map parseItemRow
    let v := validateItems lineItems claimed
    let conf := scoreConfidence lineItems v.2.1
    ⟨lineItems, claimed, v.1, v.2.1, v.2.2, true, conf⟩

/-! ## Date normalization (`app/services/normalization.py`)

`normalize_date` tries `datetime.strptime` with each pattern of
`INPUT_DATE_FORMATS` in order and reformats the first success with
`strftime`.  CPython's `_strptime` compiles each directive to a regex
fragment — `%d → (3[01]|[12]\d|0[1-9]|[1-9])`, `%m → (1[0-2]|0[1-9]|[1-9])`,
`%y → \d\d`, `%Y → \d\d\d\d`, `%b`/`%B` → the month-name alternation sorted
by length (case-insensitive), whitespace in the format → `\s+` — requires the
regex to consume the whole string, applies the 69-pivot to `%y`, and then
validates the date by constructing a `datetime`.  The tokens below embed
exactly those fragments with regex alternation/backtracking order. -/

/-- One directive (or literal) of a date format string. -/
inductive DTok where
  | lit (c : Char)
  | ws
  | day
  | mon
  | y4
  | y2
  | monAbbr
  | monFull
deriving DecidableEq

/-- The (day, month, year) triple recovered by `strptime`
(defaults 1, 1, 1900 as in CPython). -/
structure DParts where
  d : Nat
  m : Nat
  y : Nat
deriving DecidableEq, Repr

/-- `%y` pivot: 00–68 → 2000s, 69–99 → 1900s. -/
def pivotY2 (v : Nat) : Nat := if v ≤ 68 then 2000 + v else 1900 + v

/-- Alternative `3[01]` of the `%d` fragment. -/
def dayA1 : List Char → Option (Nat × List Char)
  | c1 :: c2 :: r =>
    if c1 = '3' && (c2 = '0' || c2 = '1') then some (natOfDigits [c1, c2], r) else none
  | _ => none

/-- Alternative `[12]\d` of the `%d` fragment. -/
def dayA2 : List Char → Option (Nat × List Char)
  | c1 :: c2 :: r =>
    if (c1 = '1' || c1 = '2') && c2.isDigit then some (natOfDigits [c1, c2], r) else none
  | _ => none

/-- Alternative `0[1-9]` of the `%d` (and `%m`) fragment. -/
def dayA3 : List Char → Option (Nat × List Char)
  | c1 :: c2 :: r =>
    if c1 = '0' && c2.isDigit && c2 ≠ '0' then some (natOfDigits [c2], r) else none
  | _ => none

/-- Alternative `[1-9]` of the `%d` (and `%m`) fragment. -/
def dayA4 : List Char → Option (Nat × List Char)
  | c :: r => if c.isDigit && c ≠ '0' then some (natOfDigits [c], r) else none
  | _ => none

/-- The `%d` fragment `(3[01]|[12]\d|0[1-9]|[1-9])`, alternatives in order. -/
def dayAlts : List (List Char → Option (Nat × List Char)) := [dayA1, dayA2, dayA3, dayA4]

/-- Alternative `1[0-2]` of the `%m` fragment. -/
def monA1 : List Char → Option (Nat × List Char)
  | c1 :: c2 :: r =>
    if c1 = '1' && (c2 = '0' || c2 = '1' || c2 = '2') then some (natOfDigits [c1, c2], r)
    else none
  | _ => none

/-- The `%m` fragment `(1[0-2]|0[1-9]|[1-9])`, alternatives in order. -/
def monAlts : List (List Char → Option (Nat × List Char)) := [monA1, dayA3, dayA4]

/-- `%b` month abbreviations as printed by `strftime` (C locale). -/
def abbrDisp : Nat → List Char
  | 1 => ['J', 'a', 'n'] | 2 => ['F', 'e', 'b'] | 3 => ['M', 'a', 'r']
  | 4 => ['A', 'p', 'r'] | 5 => ['M', 'a', 'y'] | 6 => ['J', 'u', 'n']
  | 7 => ['J', 'u', 'l'] | 8 => ['A', 'u', 'g'] | 9 => ['S', 'e', 'p']
  | 10 => ['O', 'c', 't'] | 11 => ['N', 'o', 'v'] | 12 => ['D', 'e', 'c']
  | _ => []

/-- `%B` month names as printed by `strftime` (C locale). -/
def fullDisp : Nat → List Char
  | 1 => ['J', 'a', 'n', 'u', 'a', 'r', 'y']
  | 2 => ['F', 'e', 'b', 'r', 'u', 'a', 'r', 'y']
  | 3 => ['M', 'a', 'r', 'c', 'h']
  | 4 => ['A', 'p', 'r', 'i', 'l']
  | 5 => ['M', 'a', 'y']
  | 6 => ['J', 'u', 'n', 'e']
  | 7 => ['J', 'u', 'l', 'y']
  | 8 => ['A', 'u', 'g', 'u', 's', 't']
  | 9 => ['S', 'e', 'p', 't', 'e', 'm', 'b', 'e', 'r']
  | 10 => ['O', 'c', 't', 'o', 'b', 'e', 'r']
  | 11 => ['N', 'o', 'v', 'e', 'm', 'b', 'e', 'r']
  | 12 => ['D', 'e', 'c', 'e', 'm', 'b', 'e', 'r']
  | _ => []

/-- The `%b` alternation (all names have length three; source order kept by
CPython's stable length sort). -/
def abbrMonths : List (Nat × List Char) :=
  [1, 2, 3, 4, 5, 6, 7, 8, 9, 10, 11, 12].map (fun i => (i, pyUpper (abbrDisp i)))

/-- The `%B` alternation, sorted by length, longest first (CPython's stable
sort on the calendar-ordered names). -/
def fullMonths : List (Nat × List Char) :=
  [9, 2, 11, 12, 1, 10, 8, 3, 4, 6, 7, 5].map (fun i => (i, pyUpper (fullDisp i)))

/-- Regex matching of a compiled `strptime` format against the whole input,
with the alternation/backtracking order of CPython's `re`. -/
def matchToks : List DTok → List Char → DParts → Option DParts
  | [], s, p => if s = [] then some p else none
  | .lit c :: ts, s, p =>
    match s with
    | x :: xs => if x = c then matchToks ts xs p else none
    | [] => none
  | .ws :: ts, s, p =>
    match wsPlus s with
    | some r => matchToks ts r p
    | none => none
  | .day :: ts, s, p =>
    firstSome (fun alt => (alt s).bind (fun vr => matchToks ts vr.2 ⟨vr.1, p.m, p.y⟩)) dayAlts
  | .mon :: ts, s, p =>
    firstSome (fun alt => (alt s).bind (fun vr => matchToks ts vr.2 ⟨p.d, vr.1, p.y⟩)) monAlts
  | .y4 :: ts, s, p =>
    (takeDigits 4 s).bind (fun gr => matchToks ts gr.2 ⟨p.d, p.m, natOfDigits gr.1⟩)
  | .y2 :: ts, s, p =>
    (takeDigits 2 s).bind (fun gr => matchToks ts gr.2 ⟨p.d, p.m, pivotY2 (natOfDigits gr.1)⟩)
  | .monAbbr :: ts, s, p =>
    firstSome (fun nm => (ciTake nm.2 s).bind (fun r => matchToks ts r ⟨p.d, nm.1, p.y⟩)) abbrMonths
  | .monFull :: ts, s, p =>
    firstSome (fun nm => (ciTake nm.2 s).bind (fun r => matchToks ts r ⟨p.d, nm.1, p.y⟩)) fullMonths

/-- A template tail that cannot match a digit-headed input — the property of
each context in which a numeric directive of `INPUT_DATE_FORMATS` occurs
(separator literal, whitespace, or end of format). -/
def DigitFails (ts : List DTok) : Prop :=
  ∀ (x : Char) (xs : List Char) (pr : DParts),
    x.isDigit = true → matchToks ts (x :: xs) pr = none

/-- Gregorian leap year. -/
def isLeap (y : Nat) : Bool := y % 4 = 0 && (y % 100 ≠ 0 || y % 400 = 0)

/-- Days in a month. -/
def daysInMonth (y m : Nat) : Nat :=
  if m = 2 then (if isLeap y then 29 else 28)
  else if m = 4 || m = 6 || m = 9 || m = 11 then 30
  else 31

/-- The validity check performed by the `datetime` constructor. -/
def validDate (p : DParts) : Bool :=
  1 ≤ p.y && p.y ≤ 9999 && 1 ≤ p.m && p.m ≤ 12 && 1 ≤ p.d && p.d ≤ daysInMonth p.y p.m

/-- `datetime.strptime(s, fmt)` (returning the date parts). -/
def strptimeF (toks : List DTok) (s : List Char) : Option DParts :=
  (matchToks toks s ⟨1, 1, 1900⟩).bind (fun p => if validDate p then some p else none)

/-- Two-digit zero-padded rendering (`%d`, `%m`, `%y`). -/
def pad2 (n : Nat) : List Char := [digitChar (n / 10), digitChar (n % 10)]

/-- Four-digit rendering of a year `1000 ≤ y ≤ 9999` (`%Y`). -/
def pad4 (y : Nat) : List Char :=
  [digitChar (y / 1000), digitChar (y / 100 % 10), digitChar (y / 10 % 10), digitChar (y % 10)]

/-- One directive of `strftime`. -/
def fmtTok (p : DParts) : DTok → List Char
  | .lit c => [c]
  | .ws => [' ']
  | .day => pad2 p.d
  | .mon => pad2 p.m
  | .y4 => pad4 p.y
  | .y2 => pad2 (p.y % 100)
  | .monAbbr => abbrDisp p.m
  | .monFull => fullDisp p.m

/-- `d.strftime(fmt)`. -/
def strftime (p : DParts) (toks : List DTok) : List Char := (toks.map (fmtTok p)).flatten

/-- `"%d/%m/%Y"` -/
def fmtDMY : List DTok := [.day, .lit '/', .mon, .lit '/', .y4]
/-- `"%d-%m-%Y"` -/
def fmtDMYd : List DTok := [.day, .lit '-', .mon, .lit '-', .y4]
/-- `"%Y-%m-%d"` -/
def fmtYMDd : List DTok := [.y4, .lit '-', .mon, .lit '-', .day]
/-- `"%d/%m/%y"` -/
def fmtDMy : List DTok := [.day, .lit '/', .mon, .lit '/', .y2]
/-- `"%d %b %Y"` -/
def fmtDbY : List DTok := [.day, .ws, .monAbbr, .ws, .y4]
/-- `"%d %B %Y"` -/
def fmtDBY : List DTok := [.day, .ws, .monFull, .ws, .y4]
/-- `"%Y/%m/%d"` -/
def fmtYMD : List DTok := [.y4, .lit '/', .mon, .lit '/', .day]
/-- `"%m/%d/%Y"` -/
def fmtMDY : List DTok := [.mon, .lit '/', .day, .lit '/', .y4]

/-- `INPUT_DATE_FORMATS`, in source order. -/
def inputDateFormats : List (List DTok) :=
  [fmtDMY, fmtDMYd, fmtYMDd, fmtDMy, fmtDbY, fmtDBY, fmtYMD, fmtMDY]

/-- `normalize_date` on a (string) input: strip, try the input formats in
order, reformat the first success to the target format; otherwise return the
input unchanged.  `none` is the empty-input `None` return. -/
def normalizeDate (dateStr : List Char) (target : List DTok) : Option (List Char) :=
  let value := pyStrip dateStr
  if value = [] then none
  else
    match firstSome (fun fmt => strptimeF fmt value) inputDateFormats with
    | some p => some (strftime p target)
    | none => some value

/-! ## Python values / JSON (`json.loads` on model responses)

Python values flowing through the pipeline (parsed JSON, canonical records,
insurer configs) are modelled by one inductive type.  `Json.null` stands for
Python `None` (which is also what `json.loads` produces for `null`). -/

inductive Json where
  | null
  | bool (b : Bool)
  | num (q : ℚ)
  | str (s : List Char)
  | arr (xs : List Json)
  | obj (kvs : List (List Char × Json))

/-- Python truthiness of a modelled value. -/
def truthy : Json → Bool
  | .null => false
  | .bool b => b
  | .num q => if q = 0 then false else true
  | .str s => !s.isEmpty
  | .arr xs => !xs.isEmpty
  | .obj kvs => !kvs.isEmpty

/-- `dict.get(k)` on a modelled object: the stored value, else `None`. -/
def jget (kvs : List (List Char × Json)) (k : List Char) : Json :=
  match kvs with
  | [] => .null
  | (k', v) :: rest => if k' = k then v else jget rest k

/-- JSON string body: characters until the closing quote, decoding the
single-character escapes (`\uXXXX` escapes are not modelled; no claim input
uses them). -/
def parseJStr : List Char → Option (List Char × List Char)
  | [] => none
  | '"' :: r => some ([], r)
  | '\\' :: e :: r =>
    (match e with
     | '"' => some '"'
     | '\\' => some '\\'
     | '/' => some '/'
     | 'n' => some '\n'
     | 't' => some '\t'
     | 'r' => some '\r'
     | 'b' => some '\x08'
     | 'f' => some '\x0c'
     | _ => none).bind
      (fun c => (parseJStr r).map (fun p : List Char × List Char => (c :: p.1, p.2)))
  | c :: r => (parseJStr r).map (fun p => (c :: p.1, p.2))

/-- `\d+` (greedy). -/
def takeDigitRun (s : List Char) : List Char × List Char :=
  (s.takeWhile Char.isDigit, s.dropWhile Char.isDigit)

/-- JSON number (integer part with no leading zeros, optional fraction,
optional exponent), as an exact rational. -/
def parseJNum (s : List Char) : Option (ℚ × List Char) :=
  let (neg, s1) := match s with | '-' :: r => (true, r) | _ => (false, s)
  let (ip, s2) := takeDigitRun s1
  if ip = [] then none
  else if ip.length ≥ 2 && ip.headD '0' = '0' then none
  else
    let (fp, s3) := match s2 with
      | '.' :: r =>
        let (ds, r') := takeDigitRun r
        (ds, if ds = [] then s2 else r')
      | _ => ([], s2)
    if s3 = s2 && (match s2 with | '.' :: _ => true | _ => false) then none
    else
      let (ex, s4) : Option ℤ × List Char := match s3 with
        | 'e' :: r | 'E' :: r =>
          let (esign, r1) : Bool × List Char :=
            match r with | '-' :: rr => (true, rr) | '+' :: rr => (false, rr) | _ => (false, r)
          let (eds, r2) := takeDigitRun r1
          if eds = [] then (none, s3)
          else (some (if esign then -(natOfDigits eds : ℤ) else (natOfDigits eds : ℤ)), r2)
        | _ => (some 0, s3)
      match ex with
      | none => none
      | some e =>
        let mant : ℚ := (natOfDigits ip : ℚ) + (natOfDigits fp : ℚ) / ((10 : ℚ) ^ fp.length)
        let signed := if neg then -mant else mant
        some (signed * (10 : ℚ) ^ e, s4)

/-- JSON whitespace. -/
def jWS (s : List Char) : List Char :=
  s.dropWhile (fun c => c = ' ' || c = '\t' || c = '\n' || c = '\r')

mutual

/-- Fuel-indexed recursive-descent JSON value parser (model of the grammar
accepted by `json.loads`). -/
def parseJVal : Nat → List Char → Option (Json × List Char)
  | 0, _ => none
  | fuel + 1, s =>
    match jWS s with
    | [] => none
    | c :: r =>
      if c = '{' then parseJObj fuel (jWS r) []
      else if c = '[' then parseJArr fuel (jWS r) []
      else if c = '"' then (parseJStr r).map (fun p => (.str p.1, p.2))
      else
        match litTake ['n', 'u', 'l', 'l'] (c :: r) with
        | some r' => some (.null, r')
        | none =>
          match litTake ['t', 'r', 'u', 'e'] (c :: r) with
          | some r' => some (.bool true, r')
          | none =>
            match litTake ['f', 'a', 'l', 's', 'e'] (c :: r) with
            | some r' => some (.bool false, r')
            | none => (parseJNum (c :: r)).map (fun p => (.num p.1, p.2))

/-- Object members after `{` (accumulator in reverse). -/
def parseJObj : Nat → List Char → List (List Char × Json) → Option (Json × List Char)
  | 0, _, _ => none
  | fuel + 1, s, acc =>
    match s with
    | '}' :: r => if acc.isEmpty then some (.obj [], r) else none
    | '"' :: r =>
      match parseJStr r with
      | none => none
      | some (k, r1) =>
        match jWS r1 with
        | ':' :: r2 =>
          match parseJVal fuel r2 with
          | none => none
          | some (v, r3) =>
            match jWS r3 with
            | ',' :: r4 => parseJObj fuel (jWS r4) ((k, v) :: acc)
            | '}' :: r4 => some (.obj ((k, v) :: acc).reverse, r4)
            | _ => none
        | _ => none
    | _ => none

/-- Array elements after `[` (accumulator in reverse). -/
def parseJArr : Nat → List Char → List Json → Option (Json × List Char)
  | 0, _, _ => none
  | fuel + 1, s, acc =>
    match s with
    | ']' :: r => if acc.isEmpty then some (.arr [], r) else none
    | _ =>
      match parseJVal fuel s with
      | none => none
      | some (v, r1) =>
        match jWS r1 with
        | ',' :: r2 => parseJArr fuel r2 (v :: acc)
        | ']' :: r2 => some (.arr (v :: acc).reverse, r2)
        | _ => none

end

/-- `json.loads`: parse one value and require only whitespace to remain. -/
def jsonLoads (s : List Char) : Option Json :=
  match parseJVal (2 * s.length + 4) s with
  | some (v, rest) => if jWS rest = [] then some v else none
  | none => none

/-! ## Model-response parsing (`app/services/llm_extraction_service.py`) -/

/-- The opening brace character. -/
def lbraceC : Char := Char.ofNat 123

/-- The closing brace character. -/
def rbraceC : Char := Char.ofNat 125

/-- `re.sub(r"```json|```", "", raw)` (fuel-indexed scan). -/
def stripFencesF : Nat → List Char → List Char
  | 0, s => s
  | _ + 1, [] => []
  | fuel + 1, c :: rest =>
    match litTake (("```json").toList) (c :: rest) with
    | some r => stripFencesF fuel r
    | none =>
      match litTake (("```").toList) (c :: rest) with
      | some r => stripFencesF fuel r
      | none => c :: stripFencesF fuel rest

/-- `re.sub(r"```json|```", "", raw)`. -/
def stripFences (s : List Char) : List Char := stripFencesF s.length s

/-- `LLMExtractionService._repair_json`. -/
def repairJson (raw : List Char) : List Char :=
  let s0 := pyStrip (stripFences raw)
  match findIdx s0 lbraceC with
  | none => s0
  | some start =>
    let s1 := if 0 < start then s0.drop start else s0
    let t := pyRstrip s1
    let s2 := if t.getLast? = some ',' then t.dropLast else t
    let openBr : ℤ := (s2.count '[' : ℤ) - (s2.count ']' : ℤ)
    let openBc : ℤ := (s2.count lbraceC : ℤ) - (s2.count rbraceC : ℤ)
    s2 ++ List.replicate (max openBr 0).toNat ']' ++
      List.replicate (max openBc 0).toNat rbraceC

/-- Pass 1 of `_parse_response`: strip fences, drop any prose before the
first brace, direct parse (no attempt at all when no brace exists). -/
def parsePass1 (raw : List Char) : Option Json :=
  let clean0 := pyStrip (stripFences raw)
  match findIdx clean0 lbraceC with
  | none => none
  | some start =>
    let clean := if 0 < start then clean0.drop start else clean0
    jsonLoads clean

/-- Not an opening or closing brace. -/
def nonBrace (c : Char) : Bool := !(c = lbraceC) && !(c = rbraceC)

/-- Loop of the pass-3 pattern `\{[^{}]*(?:\{[^{}]*\}[^{}]*)*\}` after the
opening brace and first non-brace run (accumulator is the consumed text in
reverse); the pattern is deterministic since `[^{}]` cannot consume
braces. -/
def braceLoopF : Nat → List Char → List Char → Option (List Char × List Char)
  | 0, _, _ => none
  | fuel + 1, acc, s =>
    match s with
    | [] => none
    | c :: r =>
      if c = rbraceC then some ((c :: acc).reverse, r)
      else if c = lbraceC then
        let inner := r.takeWhile nonBrace
        let r2 := r.dropWhile nonBrace
        match r2 with
        | c2 :: r3 =>
          if c2 = rbraceC then
            let tail := r3.takeWhile nonBrace
            let r4 := r3.dropWhile nonBrace
            braceLoopF fuel (tail.reverse ++ c2 :: (inner.reverse ++ c :: acc)) r4
          else none
        | [] => none
      else none

/-- The pass-3 pattern at the current position. -/
def braceGroupAt (s : List Char) : Option (List Char × List Char) :=
  match s with
  | [] => none
  | c :: r =>
    if c = lbraceC then
      let run := r.takeWhile nonBrace
      let r1 := r.dropWhile nonBrace
      braceLoopF s.length (run.reverse ++ [c]) r1
    else none

/-- `re.finditer` of the pass-3 pattern: non-overlapping matches, left to
right. -/
def braceGroupsF : Nat → List Char → List (List Char)
  | 0, _ => []
  | fuel + 1, s =>
    match s with
    | [] => []
    | c :: rest =>
      if c = lbraceC then
        match braceGroupAt (c :: rest) with
        | some (g, r) => g :: braceGroupsF fuel r
        | none => braceGroupsF fuel rest
      else braceGroupsF fuel rest

/-- All pass-3 matches in the raw response. -/
def braceGroups (s : List Char) : List (List Char) := braceGroupsF s.length s

/-- `LLMExtractionService._parse_response`: the three escalating passes,
stopping at the first success.  Python `max(…, key=len)` keeps the first of
several longest matches. -/
def parseResponse (raw : List Char) : Option Json × Bool :=
  match parsePass1 raw with
  | some v => (some v, true)
  | none =>
    match jsonLoads (repairJson raw) with
    | some v => (some v, true)
    | none =>
      match braceGroups raw with
      | [] => (none, false)
      | g :: gs =>
        let largest := gs.foldl (fun best m => if best.length < m.length then m else best) g
        match jsonLoads largest with
        | some v => (some v, true)
        | none => (none, false)

/-! ## Canonical schema (`app/services/canonical_schema.py`) -/

def kPatientName : List Char := ("patient_name").toList
def kInvoiceNumber : List Char := ("invoice_number").toList
def kInvoiceDate : List Char := ("invoice_date").toList
def kHospitalName : List Char := ("hospital_name").toList
def kDoctorName : List Char := ("doctor_name").toList
def kIcdCode : List Char := ("icd_code").toList
def kInsurer : List Char := ("insurer").toList
def kPolicyNumber : List Char := ("policy_number").toList
def kTotalAmount : List Char := ("total_amount").toList
def kCurrency : List Char := ("currency").toList
def kLineItems : List Char := ("line_items").toList
def kDescription : List Char := ("description").toList
def kTariffCode : List Char := ("tariff_code").toList
def kQuantity : List Char := ("quantity").toList
def kUnitPrice : List Char := ("unit_price").toList
def kAmount : List Char := ("amount").toList
def kDate : List Char := ("date").toList
def kLineNumber : List Char := ("line_number").toList

/-- The canonical record: the fixed scalar fields plus the line-item list
(each line item is a Python dict, hence `Json`). -/
structure CanonRec where
  patient_name : Json
  invoice_number : Json
  invoice_date : Json
  hospital_name : Json
  doctor_name : Json
  icd_code : Json
  insurer : Json
  policy_number : Json
  total_amount : Json
  currency : Json
  line_items : List Json

/-- `empty_canonical()`. -/
def emptyCanonical : CanonRec :=
  ⟨.null, .null, .null, .null, .null, .null, .null, .null, .null, .null, []⟩

/-- `LLMExtractionService._enforce_line_item`. -/
def enforceLineItem (kvs : List (List Char × Json)) : Json :=
  .obj [(kDescription, jget kvs kDescription), (kTariffCode, jget kvs kTariffCode),
        (kQuantity, jget kvs kQuantity), (kUnitPrice, jget kvs kUnitPrice),
        (kAmount, jget kvs kAmount), (kDate, jget kvs kDate)]

/-- `LLMExtractionService._enforce_canonical`; `none` models the
`AttributeError` a non-dict parse result would raise on `.get`. -/
def enforceCanonical (data : Json) : Option CanonRec :=
  match data with
  | .obj kvs =>
    let items :=
      match jget kvs kLineItems with
      | .arr l =>
        l.filterMap (fun it =>
          match it with
          | .obj kv => some (enforceLineItem kv)
          | _ => none)
      | _ => []
    some ⟨jget kvs kPatientName, jget kvs kInvoiceNumber, jget kvs kInvoiceDate,
          jget kvs kHospitalName, jget kvs kDoctorName, jget kvs kIcdCode,
          jget kvs kInsurer, jget kvs kPolicyNumber, jget kvs kTotalAmount,
          jget kvs kCurrency, items⟩
  | _ => none

/-- Steps 5 of `extract_to_canonical` (source lines 465–476): parse the raw
response when one arrived, and fall back to the all-null canonical record
when parsing failed (or the parsed value is falsy); the `Bool` is the
`llm_parse_ok` flag.  The outer `none` models the `AttributeError` of
enforcing a non-dict truthy parse. -/
def canonicalAfterParse (rawResponse : Option (List Char)) : Option (CanonRec × Bool) :=
  match rawResponse with
  | none => some (emptyCanonical, false)
  | some raw =>
    let pr := parseResponse raw
    if pr.2 && (match pr.1 with | some j => truthy j | none => false) then
      match pr.1 with
      | some j => (enforceCanonical j).map (fun c => (c, pr.2))
      | none => some (emptyCanonical, pr.2)
    else some (emptyCanonical, pr.2)

/-! ## Structural hints and orchestrator (`llm_extraction_service.py`) -/

/-- `'?S?\s*N[Oo]` after the literal `MEMBER`, continuation style so regex
backtracking over the two optional pieces is exact; used by the
`MEMBER'?S?\s*N[Oo]\b` search. -/
def memberNoTailB (kont : List Char → Bool) (x : List Char) : Bool :=
  let afterNo : List Char → Bool := fun z =>
    let z1 := z.dropWhile pyIsSpace
    match z1 with
    | c :: r2 =>
      if upperC c = 'N' then
        match r2 with
        | c2 :: r3 => if upperC c2 = 'O' then kont r3 else false
        | [] => false
      else false
    | [] => false
  let withS : List Char → Bool := fun z =>
    (match z with
     | c :: r2 => (if upperC c = 'S' then afterNo r2 else false) || afterNo z
     | [] => afterNo z)
  match x with
  | c :: r2 => (if c = apoC then withS r2 else false) || withS x
  | [] => withS x

/-- `re.search(r"MEMBER'?S?\s*N[Oo]\b", line, IGNORECASE)` as a hit test. -/
def memberSearchHit : List Char → Bool
  | [] => false
  | c :: rest =>
    (match ciTakePair (("MEMBER").toList) (c :: rest) with
     | some (_, r) => memberNoTailB bdryR r
     | none => false) ||
    memberSearchHit rest

/-- `'?S?\s*N[Oo]\.?\s*` after the literal `MEMBER`, returning the rest
after the match; the suffix after `[Oo]` cannot fail, so the greedy first
success is the regex result. -/
def memberNoSubTail (x : List Char) : Option (List Char) :=
  let afterNo : List Char → Option (List Char) := fun z =>
    let z1 := z.dropWhile pyIsSpace
    match z1 with
    | c :: r2 =>
      if upperC c = 'N' then
        match r2 with
        | c2 :: r3 =>
          if upperC c2 = 'O' then
            let r4 := match r3 with | '.' :: rr => rr | _ => r3
            some (r4.dropWhile pyIsSpace)
          else none
        | [] => none
      else none
    | [] => none
  let withS : List Char → Option (List Char) := fun z =>
    (match z with
     | c :: r2 =>
       match (if upperC c = 'S' then afterNo r2 else none) with
       | some out => some out
       | none => afterNo z
     | [] => afterNo z)
  match x with
  | c :: r2 =>
    match (if c = apoC then withS r2 else none) with
    | some out => some out
    | none => withS x
  | [] => withS x

/-- `re.sub(r"MEMBER'?S?\s*N[Oo]\.?\s*", "", line, IGNORECASE)`
(fuel-indexed scan removing every match). -/
def memberSubAllF : Nat → List Char → List Char
  | 0, s => s
  | _ + 1, [] => []
  | fuel + 1, c :: rest =>
    match (ciTakePair (("MEMBER").toList) (c :: rest)).bind
        (fun p => memberNoSubTail p.2) with
    | some r => memberSubAllF fuel r
    | none => c :: memberSubAllF fuel rest

/-- `re.sub(r"MEMBER'?S?\s*N[Oo]\.?\s*", "", ·)`. -/
def memberSubAll (s : List Char) : List Char := memberSubAllF s.length s

/-- `[_\-]` separator of the invoice-number pattern. -/
def isUndDash (c : Char) : Bool := c = '_' || c = '-'

/-- `\d+\b` (maximal digit run; shorter backtracks are always followed by a
digit, hence a word character, and cannot satisfy the boundary). -/
def digitRunBdry (s : List Char) : Option (List Char × List Char) :=
  let run := s.takeWhile Char.isDigit
  let rest := s.dropWhile Char.isDigit
  if run = [] then none
  else if bdryR rest then some (run, rest) else none

/-- `[_\-\s]?\d+\b` with the optional separator tried greedily. -/
def invTail (s : List Char) : Option (List Char × List Char) :=
  match s with
  | c :: r =>
    if isUndDash c || pyIsSpace c then
      match digitRunBdry r with
      | some (run, rest) => some (c :: run, rest)
      | none => digitRunBdry s
    else digitRunBdry s
  | [] => none

/-- `\d{1,2}` greedily (two digits, then one) followed by a continuation. -/
def oneOrTwoDigits (s : List Char) (kont : List Char → List Char → Option (List Char × List Char)) :
    Option (List Char × List Char) :=
  match s with
  | c1 :: c2 :: r =>
    if c1.isDigit then
      if c2.isDigit then
        match kont [c1, c2] r with
        | some out => some out
        | none => kont [c1] (c2 :: r)
      else kont [c1] (c2 :: r)
    else none
  | [c1] => if c1.isDigit then kont [c1] [] else none
  | [] => none

/-- `\d{4}[_\-]\d{1,2}[_\-]\d{1,2}[_\-\s]?\d+\b` at the current position,
returning the captured group and the rest. -/
def invAt (s : List Char) : Option (List Char × List Char) := do
  let (d4, r1) ← takeDigits 4 s
  match r1 with
  | sep1 :: r2 =>
    if isUndDash sep1 then
      oneOrTwoDigits r2 (fun g1 r3 =>
        match r3 with
        | sep2 :: r4 =>
          if isUndDash sep2 then
            oneOrTwoDigits r4 (fun g2 r5 =>
              (invTail r5).map (fun p => (d4 ++ sep1 :: g1 ++ sep2 :: g2 ++ p.1, p.2)))
          else none
        | [] => none)
    else none
  | [] => none

/-- `re.search(r"\b(\d{4}[_\-]\d{1,2}[_\-]\d{1,2}[_\-\s]?\d+)\b", line)`:
the first captured group. -/
def invSearch : Option Char → List Char → Option (List Char)
  | _, [] => none
  | prev, c :: rest =>
    if bdryL prev && c.isDigit then
      match invAt (c :: rest) with
      | some (g, _) => some g
      | none => invSearch (some c) rest
    else invSearch (some c) rest

/-- `re.sub(r"\s+", "_", ·)`: each maximal whitespace run becomes one
underscore. -/
def wsToUnderscoreAux : Bool → List Char → List Char
  | _, [] => []
  | inRun, c :: rest =>
    if pyIsSpace c then
      if inRun then wsToUnderscoreAux true rest else '_' :: wsToUnderscoreAux true rest
    else c :: wsToUnderscoreAux false rest

/-- `re.sub(r"\s+", "_", ·)`. -/
def wsToUnderscore (s : List Char) : List Char := wsToUnderscoreAux false s

/-- Insert-or-overwrite on an association list, keeping the original key
position (Python dict assignment). -/
def hset : List (List Char × List Char) → List Char → List Char → List (List Char × List Char)
  | [], k, v => [(k, v)]
  | (k', v') :: rest, k, v => if k' = k then (k', v) :: rest else (k', v') :: hset rest k v

/-- Key membership of the hints dict. -/
def hmem (h : List (List Char × List Char)) (k : List Char) : Bool :=
  h.any (fun kv => kv.1 = k)

/-- One line of `_extract_structural_hints`. -/
def hintsStep (hints : List (List Char × List Char)) (line : List Char) :
    List (List Char × List Char) :=
  let lineS := pyStrip line
  let h1 :=
    if memberSearchHit lineS then
      let digits := (memberSubAll lineS).filter Char.isDigit
      if 6 ≤ digits.length && digits.length ≤ 20 then hset hints kPolicyNumber digits
      else hints
    else hints
  if !hmem h1 kInvoiceNumber then
    match invSearch none lineS with
    | some g => hset h1 kInvoiceNumber (wsToUnderscore (pyStrip g))
    | none => h1
  else h1

/-- `LLMExtractionService._extract_structural_hints` (the hints dict in
insertion order). -/
def extractStructuralHints (raw : List Char) : List (List Char × List Char) :=
  (pySplitLines raw).foldl hintsStep []

/-- `re.match(r"^(ICD|Z\d|J\d|DIAGNOSIS)", ·, IGNORECASE)`. -/
def reemergeMatch (s : List Char) : Bool :=
  (ciTake ['I', 'C', 'D'] s).isSome ||
  (match s with
   | c :: c2 :: _ => (upperC c = 'Z' || upperC c = 'J') && c2.isDigit
   | _ => false) ||
  (ciTake ['D', 'I', 'A', 'G', 'N', 'O', 'S', 'I', 'S'] s).isSome

/-- `"\n".join`. -/
def joinNl : List (List Char) → List Char
  | [] => []
  | [l] => l
  | l :: rest => l ++ '\n' :: joinNl rest

/-- Line loop of `_strip_table_section`. -/
def stripTableAux : List (List Char) → Bool → List (List Char)
  | [], _ => []
  | line :: rest, inTable =>
    let stripped := pyStrip line
    if 2 ≤ headerHits stripped then stripTableAux rest true
    else if inTable then
      if reemergeMatch stripped then line :: stripTableAux rest false
      else stripTableAux rest true
    else line :: stripTableAux rest inTable

/-- `LLMExtractionService._strip_table_section`. -/
def stripTableSection (raw : List Char) : List Char :=
  joinNl (stripTableAux (pySplitLines raw) false)

/-- Line loop of `_clean_text` (deduplication, first occurrence kept). -/
def cleanTextAux : List (List Char) → List (List Char) → List (List Char)
  | [], _ => []
  | line :: rest, seen =>
    let s := pyStrip line
    if s ≠ [] && !seen.contains s then s :: cleanTextAux rest (s :: seen)
    else cleanTextAux rest seen

/-- `LLMExtractionService._clean_text`. -/
def cleanText (raw : List Char) : List Char := joinNl (cleanTextAux (pySplitLines raw) [])

/-- `_LEAN_SCHEMA`: `json.dumps` (indent 2) of the canonical prompt schema
with `line_items` emptied. -/
def leanSchema : List Char :=
  [lbraceC] ++
    ("\n  \"patient_name\": null,\n  \"invoice_number\": null,\n  \"invoice_date\": null,\n  \"hospital_name\": null,\n  \"doctor_name\": null,\n  \"icd_code\": null,\n  \"insurer\": null,\n  \"policy_number\": null,\n  \"total_amount\": null,\n  \"currency\": null,\n  \"line_items\": []\n").toList
    ++ [rbraceC]

/-- `LLMExtractionService._build_prompt`. -/
def buildPrompt (clean : List Char) (hints : List (List Char × List Char)) : List Char :=
  let hintBlock :=
    if !hints.isEmpty then
      ("\nPre-extracted fields (use these if uncertain):\n").toList ++
        (hints.map (fun kv =>
          ("  ").toList ++ kv.1 ++ (": ").toList ++ kv.2 ++ ['\n'])).flatten
    else []
  ("You are a medical invoice data extraction system.\n\nExtract header fields from the OCR text.\nReturn ONLY valid JSON. No explanation. No markdown. Raw JSON only.\n\nFields:\npatient_name, invoice_number, invoice_date, hospital_name, doctor_name,\nicd_code, insurer, policy_number, total_amount (number only), currency,\nline_items (always leave as []).\n\nUse null for missing fields. Never add extra fields.\n").toList
    ++ hintBlock ++ ("\nSchema:\n").toList ++ leanSchema
    ++ ("\n\nOCR TEXT:\n\"\"\"\n").toList ++ clean ++ ("\n\"\"\"\n").toList

/-- Canonical-record field read by hint key (the hints dict only ever holds
the canonical keys `policy_number` and `invoice_number`). -/
def cGet (c : CanonRec) (k : List Char) : Json :=
  if k = kPatientName then c.patient_name
  else if k = kInvoiceNumber then c.invoice_number
  else if k = kInvoiceDate then c.invoice_date
  else if k = kHospitalName then c.hospital_name
  else if k = kDoctorName then c.doctor_name
  else if k = kIcdCode then c.icd_code
  else if k = kInsurer then c.insurer
  else if k = kPolicyNumber then c.policy_number
  else if k = kTotalAmount then c.total_amount
  else if k = kCurrency then c.currency
  else .null

/-- Canonical-record field write by hint key. -/
def cSet (c : CanonRec) (k : List Char) (v : Json) : CanonRec :=
  if k = kPatientName then { c with patient_name := v }
  else if k = kInvoiceNumber then { c with invoice_number := v }
  else if k = kInvoiceDate then { c with invoice_date := v }
  else if k = kHospitalName then { c with hospital_name := v }
  else if k = kDoctorName then { c with doctor_name := v }
  else if k = kIcdCode then { c with icd_code := v }
  else if k = kInsurer then { c with insurer := v }
  else if k = kPolicyNumber then { c with policy_number := v }
  else if k = kTotalAmount then { c with total_amount := v }
  else if k = kCurrency then { c with currency := v }
  else c

/-- `LLMExtractionService._backfill_from_hints`. -/
def backfillFromHints (c : CanonRec) (hints : List (List Char × List Char)) : CanonRec :=
  hints.foldl (fun acc kv => if !truthy (cGet acc kv.1) then cSet acc kv.1 (.str kv.2) else acc) c

/-- `LLMExtractionService._backfill_total`. -/
def backfillTotal (c : CanonRec) (claimed : Option ℚ) : CanonRec :=
  match claimed with
  | some q => if !truthy c.total_amount then { c with total_amount := .num q } else c
  | none => c

/-- `LLMExtractionService._backfill_insurer_from_text` (note: it stores the
matched alias, not the insurer key). -/
def backfillInsurerFromText (c : CanonRec) (raw : List Char)
    (aliasesMap : List (List Char × List (List Char))) : CanonRec :=
  if truthy c.insurer then c
  else
    let textUpper := pyUpper raw
    match firstSome
        (fun kv => firstSome
          (fun al => if containsSub textUpper (pyUpper al) then some al else none)
          kv.2)
        aliasesMap with
    | some al => { c with insurer := .str al }
    | none => c

/-- `LineItem.to_dict()` (dataclass field order, `_all_amounts` removed). -/
def liToDict (li : LineItem) : List (List Char × Json) :=
  [(kLineNumber, match li.line_number with | some n => .num n | none => .null),
   (kTariffCode, match li.tariff_code with | some s => .str s | none => .null),
   (kDescription, match li.description with | some s => .str s | none => .null),
   (kDate, match li.date with | some s => .str s | none => .null),
   (kQuantity, match li.quantity with | some q => .num q | none => .null),
   (kUnitPrice, match li.unit_price with | some q => .num q | none => .null),
   (kAmount, match li.amount with | some q => .num q | none => .null)]

/-- Overwrite on an association list of `Json` values (Python dict
assignment on an existing key). -/
def jset : List (List Char × Json) → List Char → Json → List (List Char × Json)
  | [], k, v => [(k, v)]
  | (k', v') :: rest, k, v => if k' = k then (k', v) :: rest else (k', v') :: jset rest k v

/-- `LLMExtractionService._merge_line_items`: table items are authoritative;
the model may fill description / tariff-code gaps at the same index. -/
def mergeLineItems (tableItems : List LineItem) (llmItems : List Json) : List Json :=
  if tableItems.isEmpty then llmItems
  else
    tableItems.mapIdx (fun i t =>
      let base0 := liToDict t
      let base1 :=
        match llmItems[i]? with
        | some (.obj lkv) =>
          if !truthy (jget base0 kDescription) && truthy (jget lkv kDescription) then
            jset base0 kDescription (jget lkv kDescription)
          else base0
        | _ => base0
      let base2 :=
        match llmItems[i]? with
        | some (.obj lkv) =>
          if !truthy (jget base1 kTariffCode) && truthy (jget lkv kTariffCode) then
            jset base1 kTariffCode (jget lkv kTariffCode)
          else base1
        | _ => base1
      .obj base2)

/-- The `_table_validation` metadata attached to the result. -/
structure TableMeta where
  claimed_total : Option ℚ
  computed_total : Option ℚ
  total_match : Bool
  discrepancies : List (List Char)
  table_confidence : ℚ
  llm_parse_ok : Bool

/-- Result of `extract_to_canonical`: either the early error dict or the
canonical record with its metadata. -/
inductive ExtractOut where
  | err (msg : List Char)
  | ok (record : CanonRec) (meta : TableMeta)

def msgNoText : List Char := ("No text provided").toList

/-- `LLMExtractionService.extract_to_canonical`.  The external model call
is a parameter `ollama : prompt → Option response` (`none` models the
timeout / connection-failure path of `_call_ollama`).  The outer `none`
models an `AttributeError` escaping from `_enforce_canonical`. -/
def extractToCanonical (rawText : List Char)
    (ollama : List Char → Option (List Char))
    (insurerAliasesMap : Option (List (List Char × List (List Char)))) :
    Option ExtractOut :=
  if rawText = [] || pyStrip rawText = [] then some (.err msgNoText)
  else
    let hints := extractStructuralHints rawText
    let tres := extract rawText
    let strippedOcr := stripTableSection rawText
    let cleanT := cleanText strippedOcr
    let prompt := buildPrompt cleanT hints
    let rawResponse := ollama prompt
    match canonicalAfterParse rawResponse with
    | none => none
    | some (c0, ok) =>
      let c1 := backfillFromHints c0 hints
      let c2 := backfillTotal c1 tres.claimed_total
      let c3 :=
        match insurerAliasesMap with
        | some m =>
          if !m.isEmpty && !truthy c2.insurer then backfillInsurerFromText c2 rawText m
          else c2
        | none => c2
      let items := mergeLineItems tres.line_items c3.line_items
      some (.ok { c3 with line_items := items }
        ⟨tres.claimed_total, tres.computed_total, tres.total_match,
         tres.discrepancies, tres.confidence, ok⟩)

/-! ## Insurer mapping engine (`app/services/mapping_engine.py`)

The configuration directory is abstracted as an association list from insurer
key (the JSON file name without extension, as listed by `os.listdir`) to
`some config` when the file loads, or `none` when `json.load` raises on it. -/

/-- One insurer configuration (`{key}.json`).  `display_name` / `version`
are optional because `process` reads them with `dict.get` defaults; the list
fields model `config.get(…, [])` / `config.get("output_schema", {})`. -/
structure InsurerConfig where
  display_name : Option (List Char)
  version : Option (List Char)
  aliases : List (List Char)
  required_fields : List (List Char)
  output_schema : List (List Char × List Char)

/-- The configuration store: `os.listdir` order, parse result per file. -/
def InsurerStore : Type := List (List Char × Option InsurerConfig)

/-- `InsurerMapper.list_available`. -/
def listAvailable (store : InsurerStore) : List (List Char) := store.map (·.1)

/-- Association-list lookup on the store. -/
def storeLookup : InsurerStore → List Char → Option (Option InsurerConfig)
  | [], _ => none
  | (k', c) :: rest, k => if k' = k then some c else storeLookup rest k

/-- `InsurerMapper.load_config`, with its two failure modes (missing file →
`ValueError`, malformed file → `json.load` exception) conflated to `none`. -/
def loadConfig (store : InsurerStore) (insurerName : List Char) : Option InsurerConfig :=
  match storeLookup store (pyLower insurerName) with
  | some (some cfg) => some cfg
  | _ => none

/-- `(canonical_data.get("insurer") or "").upper().strip()`.  A truthy
non-string insurer field would raise `TypeError` on `.upper()` in the
source; such records are outside this model and read as empty. -/
def insurerRawOf (canonicalData : List (List Char × Json)) : List Char :=
  match jget canonicalData kInsurer with
  | .str s => pyStrip (pyUpper s)
  | _ => []

/-- `any(alias in raw or raw in alias for alias in aliases)` with the
aliases uppercased. -/
def keyAliasHit (raw : List Char) (cfg : InsurerConfig) : Bool :=
  cfg.aliases.any (fun a =>
    let au := pyUpper a
    containsSub raw au || containsSub au raw)

/-- `InsurerMapper.detect_insurer`: first listed key whose loaded config has
an alias matching the record's (uppercased, stripped) insurer field by
substring in either direction; keys whose configs fail to load are
skipped. -/
def detectInsurer (store : InsurerStore) (canonicalData : List (List Char × Json)) :
    Option (List Char) :=
  let raw := insurerRawOf canonicalData
  if raw = [] then none
  else
    firstSome
      (fun k =>
        match loadConfig store k with
        | some cfg => if keyAliasHit raw cfg then some k else none
        | none => none)
      (listAvailable store)

/-- The per-key test of `detect_insurer`'s loop body. -/
def detectKeyTest (store : InsurerStore) (raw : List Char) (k : List Char) :
    Option (List Char) :=
  match loadConfig store k with
  | some cfg => if keyAliasHit raw cfg then some k else none
  | none => none

/-- `InsurerMapper.map_fields`: `output[target] = canonical_data.get(source)`
for each pair of the output schema (`none` when the config fails to load,
modelling the escaping exception). -/
def mapFields (store : InsurerStore) (canonicalData : List (List Char × Json))
    (insurerName : List Char) : Option (List (List Char × Json)) :=
  (loadConfig store insurerName).map (fun cfg =>
    cfg.output_schema.foldl (fun acc ts => jset acc ts.1 (jget canonicalData ts.2)) [])

/-- `InsurerMapper.validate`: required fields whose mapped value is falsy
are missing; success iff none are. -/
def validateMapped (store : InsurerStore) (mapped : List (List Char × Json))
    (insurerName : List Char) : Option (Bool × List (List Char)) :=
  (loadConfig store insurerName).map (fun cfg =>
    let missing := cfg.required_fields.filter (fun f => !truthy (jget mapped f))
    (missing.isEmpty, missing))

/-- Result dict of `InsurerMapper.process`. -/
structure ProcessOut where
  insurer : List Char
  insurer_display_name : List Char
  config_version : List Char
  mapped_fields : List (List Char × Json)
  success : Bool
  missing_fields : List (List Char)

/-- `InsurerMapper.process`. -/
def process (store : InsurerStore) (canonicalData : List (List Char × Json))
    (insurerName : List Char) : Option ProcessOut :=
  match loadConfig store insurerName with
  | none => none
  | some cfg =>
    match mapFields store canonicalData insurerName with
    | none => none
    | some mapped =>
      match validateMapped store mapped insurerName with
      | none => none
      | some v =>
        some ⟨pyUpper insurerName, cfg.display_name.getD insurerName,
          cfg.version.getD (("unknown").toList), mapped, v.1, v.2⟩

/-! ## Concrete instances used by the claim theorems -/

/-- A well-formed model response. -/
def c4Good : List Char :=
  [lbraceC] ++ ("\"patient_name\": \"John\", \"line_items\": []").toList ++ [rbraceC]

/-- The same response truncated before its final closing brace. -/
def c4Trunc : List Char := c4Good.dropLast

/-- The parsed value of `c4Good`. -/
def c4Val : Json :=
  .obj [(kPatientName, .str (("John").toList)), (kLineItems, .arr [])]

/-- The canonical record enforced from `c4Val`. -/
def c4Canon : CanonRec :=
  ⟨.str (("John").toList), .null, .null, .null, .null, .null, .null, .null, .null, .null, []⟩

/-- Example insurer config of the C6 detection example. -/
def cfgC6abc : InsurerConfig :=
  ⟨none, none, [("ABC").toList], [], []⟩

def storeC6 : InsurerStore := [((("abc").toList), some cfgC6abc)]

/-- Config with one required output field `total`, mapped from
`total_amount`. -/
def cfgC7req : InsurerConfig :=
  ⟨none, none, [], [("total").toList], [((("total").toList), kTotalAmount)]⟩

def storeC7 : InsurerStore := [((("k").toList), some cfgC7req)]

/-- A normalized record whose `total_amount` is the number `0`: present and
neither null nor an empty string nor an empty list. -/
def recC7zero : List (List Char × Json) := [(kTotalAmount, Json.num 0)]

def storeC10 : InsurerStore := [((("m").toList), some cfgC7req)]

/-- The OCR-split-year example row of C8. -/
def c8Row : List Char := ("1 1234 CONSULT 26/01/202 6,670.00 7").toList

/-! ## General lemmas -/

theorem firstSome_eq_none {α β : Type} (f : α → Option β) (l : List α) :
    firstSome f l = none ↔ ∀ a ∈ l, f a = none := by
  induction l with
  | nil => simp [firstSome]
  | cons a rest ih =>
    simp only [firstSome]
    cases h : f a with
    | none => simp [h, ih]
    | some b => simp [h]

theorem firstSome_append {α β : Type} (f : α → Option β) (l1 l2 : List α)
    (h : ∀ a ∈ l1, f a = none) :
    firstSome f (l1 ++ l2) = firstSome f l2 := by
  induction l1 with
  | nil => simp
  | cons a rest ih =>
    have ha := h a (by simp)
    simp only [List.cons_append, firstSome, ha]
    exact ih (fun a ha' => h a (by simp [ha']))

theorem firstSome_cons_some {α β : Type} (f : α → Option β) (a : α) (l : List α)
    (b : β) (h : f a = some b) : firstSome f (a :: l) = some b := by
  simp [firstSome, h]

/-! ## Claim theorems -/

/-- Claim C1: for every parsed table row, column assignment from the ordered
amounts list `a` follows the fixed rule — one amount gives
`unit_price = amount = a[0]`; two amounts give `unit_price = a[0]`,
`amount = a[1]`; three or more give `unit_price = a[0]`, `amount = a[2]`. -/
theorem C1_column_assignment (row : List Char) :
    ((parseItemRow row).all_amounts.length = 1 →
      (parseItemRow row).unit_price = (parseItemRow row).all_amounts[0]? ∧
      (parseItemRow row).amount = (parseItemRow row).all_amounts[0]?) ∧
    ((parseItemRow row).all_amounts.length = 2 →
      (parseItemRow row).unit_price = (parseItemRow row).all_amounts[0]? ∧
      (parseItemRow row).amount = (parseItemRow row).all_amounts[1]?) ∧
    (3 ≤ (parseItemRow row).all_amounts.length →
      (parseItemRow row).unit_price = (parseItemRow row).all_amounts[0]? ∧
      (parseItemRow row).amount = (parseItemRow row).all_amounts[2]?) := by
  have key : ∀ (a : List ℚ),
      (a.length = 1 → (assignColumns a).1 = a[0]? ∧ (assignColumns a).2 = a[0]?) ∧
      (a.length = 2 → (assignColumns a).1 = a[0]? ∧ (assignColumns a).2 = a[1]?) ∧
      (3 ≤ a.length → (assignColumns a).1 = a[0]? ∧ (assignColumns a).2 = a[2]?) := by
    intro a
    match a with
    | [] => simp [assignColumns]
    | [x] => simp [assignColumns]
    | [x, y] => simp [assignColumns]
    | x :: y :: z :: rest =>
      refine ⟨by simp, by simp, fun _ => ?_⟩
      unfold assignColumns
      have h1 : 1 ≤ (x :: y :: z :: rest).length := by simp
      have h3 : 3 ≤ (x :: y :: z :: rest).length := by simp [List.length_cons]
      rw [if_pos h1, if_pos h3]
      exact ⟨rfl, rfl⟩
  have hs : (parseItemRow row).unit_price = (assignColumns (parseItemRow row).all_amounts).1 ∧
      (parseItemRow row).amount = (assignColumns (parseItemRow row).all_amounts).2 :=
    ⟨rfl, rfl⟩
  refine ⟨fun h => ?_, fun h => ?_, fun h => ?_⟩
  · rw [hs.1, hs.2]; exact (key _).1 h
  · rw [hs.1, hs.2]; exact (key _).2.1 h
  · rw [hs.1, hs.2]; exact (key _).2.2 h

/-- Witness for C1 at a concrete two-amount row. -/
theorem C1_column_assignment_wit :
    (parseItemRow (("10 4567 X-ray 26-01-26 1,000.00 950.00").toList)).all_amounts.length = 2 ∧
    (parseItemRow (("10 4567 X-ray 26-01-26 1,000.00 950.00").toList)).unit_price =
      (parseItemRow (("10 4567 X-ray 26-01-26 1,000.00 950.00").toList)).all_amounts[0]? ∧
    (parseItemRow (("10 4567 X-ray 26-01-26 1,000.00 950.00").toList)).amount =
      (parseItemRow (("10 4567 X-ray 26-01-26 1,000.00 950.00").toList)).all_amounts[1]? := by
  have hlen : (parseItemRow (("10 4567 X-ray 26-01-26 1,000.00 950.00").toList)).all_amounts.length = 2 := by
    decide
  have h := (C1_column_assignment (("10 4567 X-ray 26-01-26 1,000.00 950.00").toList)).2.1 hlen
  exact ⟨hlen, h.1, h.2⟩

theorem findHeaderIdx_eq_none (lines : List (List Char))
    (h : ∀ l ∈ lines, headerHits l < 2) : findHeaderIdx lines = none := by
  induction lines with
  | nil => rfl
  | cons l rest ih =>
    have hl := h l (by simp)
    have h2 : ¬ 2 ≤ headerHits l := Nat.not_le.mpr hl
    simp [findHeaderIdx, h2, ih (fun l' hl' => h l' (by simp [hl']))]

/-- Claim C2: `TableExtractor.extract` is total (it is a Lean function), and
when no line of the input has at least two hits from the fixed header
keyword set, the result has `table_detected = false`, no line items,
confidence `0`, and a non-empty discrepancy list — exactly the fixed
no-table result. -/
theorem C2_no_header_degrades (ocr : List Char)
    (h : ∀ l ∈ (pySplitLines ocr).map pyRstrip, headerHits l < 2) :
    extract ocr = ⟨[], none, none, false, [noTableMsg], false, 0⟩ ∧
    (extract ocr).table_detected = false ∧
    (extract ocr).line_items = [] ∧
    (extract ocr).confidence = 0 ∧
    (extract ocr).discrepancies ≠ [] := by
  have hf : findHeaderIdx ((pySplitLines ocr).map pyRstrip) = none :=
    findHeaderIdx_eq_none _ h
  have hd : detectTable ((pySplitLines ocr).map pyRstrip) = ([], []) := by
    simp [detectTable, hf]
  have he : extract ocr = ⟨[], none, none, false, [noTableMsg], false, 0⟩ := by
    simp only [extract, hd]
    rfl
  refine ⟨he, ?_, ?_, ?_, ?_⟩
  · rw [he]
  · rw [he]
  · rw [he]
  · rw [he]
    simp

/-- Witness for C2 on a concrete header-free text. -/
theorem C2_no_header_degrades_wit :
    extract (("hello\nworld 12.50\n").toList) = ⟨[], none, none, false, [noTableMsg], false, 0⟩ := by
  exact (C2_no_header_degrades _ (by decide)).1

theorem validateItems_spec (items : List LineItem) (claimed : Option ℚ) :
    ((validateItems items claimed).1 =
      if awardedOf items ≠ [] then some (round2 (awardedOf items).sum) else none) ∧
    ((validateItems items claimed).2.1 = true ↔
      ∃ c k, (validateItems items claimed).1 = some c ∧ claimed = some k ∧ |c - k| < 1 / 50) ∧
    ((validateItems items claimed).2.1 = false → (validateItems items claimed).2.2 ≠ []) := by
  unfold validateItems
  by_cases haw : awardedOf items = []
  · cases claimed with
    | none => simp [haw, msgNoClaimed]
    | some k => simp [haw, List.append_eq_nil]
  · cases claimed with
    | none => simp [haw, List.append_eq_nil]
    | some k =>
      simp only [haw, ne_eq, not_false_iff, if_true, reduceIte]
      split_ifs with hdiff <;> simp_all [List.append_eq_nil]

/-- Claim C3: in every extraction result, `computed_total` is the
round-to-2-decimals of the sum of the non-null item amounts (absent exactly
when there are none); `total_match` holds iff both totals are present and
differ by less than `0.02`; and whenever `total_match` is false the
discrepancy list is non-empty. -/
theorem C3_total_validation (ocr : List Char) :
    ((extract ocr).computed_total = none ↔ awardedOf (extract ocr).line_items = []) ∧
    (∀ q, (extract ocr).computed_total = some q → q = round2 (awardedOf (extract ocr).line_items).sum) ∧
    ((extract ocr).total_match = true ↔
      ∃ c k, (extract ocr).computed_total = some c ∧ (extract ocr).claimed_total = some k ∧
        |c - k| < 1 / 50) ∧
    ((extract ocr).total_match = false → (extract ocr).discrepancies ≠ []) := by
  unfold extract
  set lines := (pySplitLines ocr).map pyRstrip
  cases hdt : (detectTable lines).1 with
  | nil =>
    simp only [hdt, reduceIte]
    refine ⟨by simp [awardedOf], by simp, by simp, by simp [noTableMsg]⟩
  | cons r rest =>
    simp only [hdt, reduceIte]
    set merged := mergeContinuations (r :: rest)
    set claimed := extractClaimedTotal merged
    set items := (merged.filter isItemRow).map parseItemRow with hitems
    have hv := validateItems_spec items claimed
    refine ⟨?_, ?_, hv.2.1, hv.2.2⟩
    · rw [hv.1]
      by_cases haw : awardedOf items = [] <;> simp [haw]
    · intro q hq
      rw [hv.1] at hq
      by_cases haw : awardedOf items = [] <;> simp [haw] at hq
      exact hq.symm

/-- Witness for C3: on a table-free input `total_match` is false and the
theorem forces a non-empty discrepancy list. -/
theorem C3_total_validation_wit :
    (extract (("plain text").toList)).total_match = false ∧
    (extract (("plain text").toList)).discrepancies ≠ [] := by
  have hm : (extract (("plain text").toList)).total_match = false := by rfl
  exact ⟨hm, (C3_total_validation (("plain text").toList)).2.2.2 hm⟩

/-- Claim C8: when the parsed date's year segment has exactly three digits
and a lone digit stands at the very end of the post-date text, that digit is
appended to the year (and only then); on the example row the trailing `7`
completes `26/01/202` to `26/01/2027` while the amount token `6,670.00`
survives as the single parsed amount (its leading digit is not consumed). -/
theorem C8_year_reconstruction :
    (∀ rawDate postDate d,
      ((splitSeps rawDate).getLastD []).length = 3 →
      eolDigit (pyStrip postDate) = some d →
      (fixSplitYear rawDate postDate).1 = rawDate ++ [d]) ∧
    (∀ rawDate postDate,
      ((splitSeps rawDate).getLastD []).length ≠ 3 →
      fixSplitYear rawDate postDate = (rawDate, postDate)) ∧
    (parseItemRow c8Row).date = some (("26/01/2027").toList) ∧
    (parseItemRow c8Row).all_amounts = [ratOfAmount (("6,670.00").toList)] ∧
    (parseItemRow c8Row).unit_price = some (ratOfAmount (("6,670.00").toList)) ∧
    (parseItemRow c8Row).amount = some (ratOfAmount (("6,670.00").toList)) := by
  refine ⟨?_, ?_, by rfl, by rfl, by rfl, by rfl⟩
  · intro rawDate postDate d h3 hd
    simp only [fixSplitYear, h3, hd, reduceIte]
  · intro rawDate postDate h3
    simp only [fixSplitYear, h3, reduceIte]

/-- Witness for C8 at the example row's date and post-date slices. -/
theorem C8_year_reconstruction_wit :
    (fixSplitYear (("26/01/202").toList) ((" 6,670.00 7").toList)).1 =
      ("26/01/202").toList ++ ['7'] := by
  exact (C8_year_reconstruction).1 (("26/01/202").toList) ((" 6,670.00 7").toList) '7'
    (by decide) (by decide)

/-- Claim C9: for every raw text that is empty or whitespace-only, the
orchestrator returns the error dict `{"error": "No text provided"}` before
hints, table extraction, the model call or any backfill run — for every
model behaviour and alias map. -/
theorem C9_empty_text (raw : List Char) (ollama : List Char → Option (List Char))
    (amap : Option (List (List Char × List (List Char))))
    (h : pyStrip raw = []) :
    extractToCanonical raw ollama amap = some (.err msgNoText) := by
  unfold extractToCanonical
  rw [if_pos]
  simp [h]

/-- Witness for C9 on a whitespace-only input. -/
theorem C9_empty_text_wit :
    extractToCanonical (("  \n\t ").toList) (fun p => some p) none = some (.err msgNoText) :=
  C9_empty_text _ _ _ (by decide)

/-- Claim C4: the response parser recovers a truncated response — pass 1
fails on `c4Trunc` (the well-formed `c4Good` with its final brace dropped)
yet both responses parse to the same value, hence the same canonical
record; and whenever all passes fail, the pipeline continues with the
all-null canonical record instead of failing. -/
theorem C4_parse_repair :
    parsePass1 c4Trunc = none ∧
    parseResponse c4Good = (some c4Val, true) ∧
    parseResponse c4Trunc = (some c4Val, true) ∧
    enforceCanonical c4Val = some c4Canon ∧
    (∀ resp, (parseResponse resp).2 = false →
      canonicalAfterParse (some resp) = some (emptyCanonical, false)) := by
  refine ⟨by rfl, by rfl, by rfl, by rfl, ?_⟩
  intro resp hfail
  simp [canonicalAfterParse, hfail]

/-- Witness for C4's fall-back conjunct at a concrete unparseable
response. -/
theorem C4_parse_repair_wit :
    canonicalAfterParse (some (("no json at all").toList)) = some (emptyCanonical, false) :=
  C4_parse_repair.2.2.2.2 (("no json at all").toList) (by rfl)

theorem firstSome_eq_some_imp {α β : Type} (f : α → Option β) (l : List α) (b : β)
    (h : firstSome f l = some b) : ∃ a ∈ l, f a = some b := by
  induction l with
  | nil => simp [firstSome] at h
  | cons a rest ih =>
    simp only [firstSome] at h
    cases hfa : f a with
    | some b' =>
      rw [hfa] at h
      have hb : b' = b := by simpa using h
      exact ⟨a, by simp, by rw [hfa, hb]⟩
    | none =>
      rw [hfa] at h
      have h' : firstSome f rest = some b := by simpa using h
      obtain ⟨a', ha', hfa'⟩ := ih h'
      exact ⟨a', by simp [ha'], hfa'⟩

theorem detectKeyTest_of_none {store : InsurerStore} {raw k : List Char}
    (hload : loadConfig store k = none) : detectKeyTest store raw k = none := by
  unfold detectKeyTest
  rw [hload]

theorem detectKeyTest_of_some {store : InsurerStore} {raw k : List Char}
    {cfg : InsurerConfig} (hload : loadConfig store k = some cfg) :
    detectKeyTest store raw k = if keyAliasHit raw cfg then some k else none := by
  unfold detectKeyTest
  rw [hload]

theorem detectInsurer_eq (store : InsurerStore) (d : List (List Char × Json)) :
    detectInsurer store d =
      (if insurerRawOf d = [] then none
       else firstSome (detectKeyTest store (insurerRawOf d)) (listAvailable store)) := by
  unfold detectInsurer detectKeyTest
  rfl

/-- Claim C6: `detect_insurer` returns `null` when the uppercase-trimmed
insurer field is empty or absent; otherwise it returns the first listed key
whose loadable config has an alias matching the field by substring in
either direction (case-insensitively), skipping keys whose configs fail to
load; it returns `null` when nothing matches; and on the concrete example,
insurer `"ABC Medical Fund"` with alias `"ABC"` under key `"abc"` detects
`"abc"` while an unmatched insurer detects nothing. -/
theorem C6_detect_insurer :
    (∀ (store : InsurerStore) (d : List (List Char × Json)),
      insurerRawOf d = [] → detectInsurer store d = none) ∧
    (∀ (store : InsurerStore) (d : List (List Char × Json)) (k : List Char),
      detectInsurer store d = some k →
        k ∈ listAvailable store ∧
        ∃ cfg, loadConfig store k = some cfg ∧ keyAliasHit (insurerRawOf d) cfg = true) ∧
    (∀ (store : InsurerStore) (d : List (List Char × Json)),
      (∀ k ∈ listAvailable store, ∀ cfg, loadConfig store k = some cfg →
        keyAliasHit (insurerRawOf d) cfg = false) →
      detectInsurer store d = none) ∧
    (∀ (store : InsurerStore) (d : List (List Char × Json)) (k : List Char)
        (cfg : InsurerConfig) (pre post : List (List Char)),
      listAvailable store = pre ++ k :: post →
      (∀ k' ∈ pre, ∀ cfg', loadConfig store k' = some cfg' →
        keyAliasHit (insurerRawOf d) cfg' = false) →
      loadConfig store k = some cfg →
      keyAliasHit (insurerRawOf d) cfg = true →
      insurerRawOf d ≠ [] →
      detectInsurer store d = some k) ∧
    detectInsurer storeC6 [(kInsurer, .str (("ABC Medical Fund").toList))] =
      some (("abc").toList) ∧
    detectInsurer storeC6 [(kInsurer, .str (("Unknown Fund").toList))] = none := by
  refine ⟨?_, ?_, ?_, ?_, by rfl, by rfl⟩
  · intro store d h
    rw [detectInsurer_eq, if_pos h]
  · intro store d k h
    rw [detectInsurer_eq] at h
    by_cases hr : insurerRawOf d = []
    · rw [if_pos hr] at h; cases h
    · rw [if_neg hr] at h
      obtain ⟨a, ha, hfa⟩ := firstSome_eq_some_imp _ _ _ h
      cases hload : loadConfig store a with
      | none => rw [detectKeyTest_of_none hload] at hfa; cases hfa
      | some cfg =>
        rw [detectKeyTest_of_some hload] at hfa
        by_cases hhit : keyAliasHit (insurerRawOf d) cfg = true
        · rw [if_pos hhit] at hfa
          obtain rfl : a = k := by injection hfa
          exact ⟨ha, cfg, hload, hhit⟩
        · rw [if_neg hhit] at hfa; cases hfa
  · intro store d h
    rw [detectInsurer_eq]
    by_cases hr : insurerRawOf d = []
    · rw [if_pos hr]
    · rw [if_neg hr, (firstSome_eq_none _ _).2]
      intro a ha
      cases hload : loadConfig store a with
      | none => exact detectKeyTest_of_none hload
      | some cfg =>
        rw [detectKeyTest_of_some hload, if_neg]
        simp [h a ha cfg hload]
  · intro store d k cfg pre post hla hpre hload hhit hr
    rw [detectInsurer_eq, if_neg hr, hla]
    rw [firstSome_append _ _ _ ?hpre]
    case hpre =>
      intro a ha
      cases hload' : loadConfig store a with
      | none => exact detectKeyTest_of_none hload'
      | some cfg' =>
        rw [detectKeyTest_of_some hload', if_neg]
        simp [hpre a ha cfg' hload']
    exact firstSome_cons_some _ _ _ _ (by rw [detectKeyTest_of_some hload, if_pos hhit])

/-- Witness for C6's first-match conjunct at the concrete store. -/
theorem C6_detect_insurer_wit :
    detectInsurer storeC6 [(kInsurer, .str (("fund ABC ltd").toList))] = some (("abc").toList) := by
  exact C6_detect_insurer.2.2.2.1 storeC6 _ (("abc").toList) cfgC6abc [] []
    (by rfl) (by simp) (by rfl) (by decide) (by decide)

theorem jset_eq_append {acc : List (List Char × Json)} {k : List Char} {v : Json}
    (h : ∀ kv ∈ acc, kv.1 ≠ k) : jset acc k v = acc ++ [(k, v)] := by
  induction acc with
  | nil => rfl
  | cons kv rest ih =>
    have hk : kv.1 ≠ k := h kv (by simp)
    simp only [jset]
    rw [if_neg hk, ih (fun kv' hkv' => h kv' (by simp [hkv']))]
    rfl

theorem foldl_jset_eq_map (schema : List (List Char × List Char))
    (d : List (List Char × Json)) (acc : List (List Char × Json))
    (hnd : (schema.map Prod.fst).Nodup)
    (hdisj : ∀ kv ∈ acc, ∀ ts ∈ schema, kv.1 ≠ ts.1) :
    schema.foldl (fun acc ts => jset acc ts.1 (jget d ts.2)) acc =
      acc ++ schema.map (fun ts => (ts.1, jget d ts.2)) := by
  induction schema generalizing acc with
  | nil => simp
  | cons t rest ih =>
    simp only [List.foldl_cons]
    rw [jset_eq_append (fun kv hkv => hdisj kv hkv t (by simp))]
    rw [ih (acc ++ [(t.1, jget d t.2)]) (by simpa using hnd.of_cons)]
    · simp
    · intro kv hkv ts hts
      rcases List.mem_append.1 hkv with hin | hone
      · exact hdisj kv hin ts (by simp [hts])
      · have : kv = (t.1, jget d t.2) := by simpa using hone
        subst this
        have := hnd
        simp only [List.map_cons, List.nodup_cons] at this
        intro hcontra
        exact this.1 (hcontra ▸ List.mem_map_of_mem Prod.fst hts)

/-- Claim C7 (amended): for a loadable key with distinct output-schema
targets, `process` maps `output[target] = record[source]` with the keys
exactly the schema targets; the success flag is true iff every required
field's mapped value is truthy (the source treats every falsy value — not
just missing/empty — as missing, see C10); the missing fields are exactly
the required fields with falsy mapped values. -/
theorem C7_process_mapping (store : InsurerStore) (d : List (List Char × Json))
    (key : List Char) (cfg : InsurerConfig)
    (hload : loadConfig store key = some cfg)
    (hnd : (cfg.output_schema.map Prod.fst).Nodup) :
    ∃ out, process store d key = some out ∧
      out.mapped_fields = cfg.output_schema.map (fun ts => (ts.1, jget d ts.2)) ∧
      (out.success = true ↔
        ∀ f ∈ cfg.required_fields, truthy (jget out.mapped_fields f) = true) ∧
      (∀ f ∈ cfg.required_fields, truthy (jget out.mapped_fields f) = false →
        f ∈ out.missing_fields) ∧
      (∀ f ∈ out.missing_fields,
        f ∈ cfg.required_fields ∧ truthy (jget out.mapped_fields f) = false) := by
  have hmf : mapFields store d key =
      some (cfg.output_schema.map (fun ts => (ts.1, jget d ts.2))) := by
    unfold mapFields
    rw [hload, Option.map_some']
    rw [foldl_jset_eq_map _ _ _ hnd (by simp)]
    simp
  set mapped := cfg.output_schema.map (fun ts => (ts.1, jget d ts.2)) with hmapped
  have hvm : validateMapped store mapped key =
      some ((cfg.required_fields.filter (fun f => !truthy (jget mapped f))).isEmpty,
        cfg.required_fields.filter (fun f => !truthy (jget mapped f))) := by
    unfold validateMapped
    rw [hload, Option.map_some']
  have hp : process store d key =
      some ⟨pyUpper key, cfg.display_name.getD key, cfg.version.getD (("unknown").toList),
        mapped, (cfg.required_fields.filter (fun f => !truthy (jget mapped f))).isEmpty,
        cfg.required_fields.filter (fun f => !truthy (jget mapped f))⟩ := by
    unfold process
    simp only [hload, hmf, hvm]
  refine ⟨_, hp, rfl, ?_, ?_, ?_⟩
  · rw [List.isEmpty_iff, List.filter_eq_nil_iff]
    constructor
    · intro hall f hf
      have := hall f hf
      simpa using this
    · intro hall f hf
      simp [hall f hf]
  · intro f hf htr
    exact List.mem_filter.2 ⟨hf, by simp [htr]⟩
  · intro f hf
    have := List.mem_filter.1 hf
    exact ⟨this.1, by simpa using this.2⟩

/-- Witness for C7 at a concrete loadable config. -/
theorem C7_process_mapping_wit :
    ∃ out, process storeC7 recC7zero (("k").toList) = some out ∧
      out.mapped_fields = cfgC7req.output_schema.map (fun ts => (ts.1, jget recC7zero ts.2)) := by
  obtain ⟨out, hp, hm, _⟩ :=
    C7_process_mapping storeC7 recC7zero (("k").toList) cfgC7req (by rfl) (by decide)
  exact ⟨out, hp, hm⟩

/-- Counterexample to C7 as stated: in `recC7zero` the required field
`total` maps to the number `0` — present, non-null, not an empty string and
not an empty list — yet `process` reports `success = false` with `total`
missing, refuting "success iff no required field is missing or empty". -/
theorem C7_missing_or_empty_cex :
    (process storeC7 recC7zero (("k").toList)).map
        (fun o => (o.success, o.missing_fields, jget o.mapped_fields (("total").toList))) =
      some (false, [("total").toList], Json.num 0) ∧
    Json.num 0 ≠ Json.null ∧ Json.num 0 ≠ Json.str [] ∧ Json.num 0 ≠ Json.arr [] := by
  refine ⟨by rfl, ?_, ?_, ?_⟩ <;> (intro h; cases h)

theorem jget_of_lookup {mapped : List (List Char × Json)} {f : List Char} {v : Json}
    (h : List.lookup f mapped = some v) : jget mapped f = v := by
  induction mapped with
  | nil => simp [List.lookup] at h
  | cons kv rest ih =>
    by_cases hk : kv.1 = f
    · simp only [List.lookup, jget] at h ⊢
      rw [if_pos hk]
      rw [show (f == kv.1) = true from beq_iff_eq.2 hk.symm] at h
      simpa using h
    · simp only [List.lookup, jget] at h ⊢
      rw [if_neg hk]
      rw [show (f == kv.1) = false from beq_eq_false_iff_ne.2 (fun he => hk he.symm)] at h
      exact ih h

/-- Claim C10: required-field validation treats every falsy mapped value as
missing — a required field holding `0` (also covering `0.0`), `""` or `[]`
is reported missing and forces `success = false`, even though it is present
and non-null. -/
theorem C10_falsy_required (store : InsurerStore) (mapped : List (List Char × Json))
    (key : List Char) (cfg : InsurerConfig) (f : List Char) (v : Json)
    (hload : loadConfig store key = some cfg)
    (hf : f ∈ cfg.required_fields)
    (hv : List.lookup f mapped = some v)
    (hfalsy : v = .num 0 ∨ v = .str [] ∨ v = .arr []) :
    ∃ res, validateMapped store mapped key = some res ∧ res.1 = false ∧ f ∈ res.2 := by
  have htr : truthy (jget mapped f) = false := by
    rw [jget_of_lookup hv]
    rcases hfalsy with h | h | h <;> subst h <;> rfl
  have hmem : f ∈ cfg.required_fields.filter (fun x => !truthy (jget mapped x)) :=
    List.mem_filter.2 ⟨hf, by simp [htr]⟩
  refine ⟨_, by unfold validateMapped; rw [hload, Option.map_some'], ?_, hmem⟩
  have hne : cfg.required_fields.filter (fun x => !truthy (jget mapped x)) ≠ [] :=
    List.ne_nil_of_mem hmem
  simpa [List.isEmpty_iff] using hne

/-- Witness for C10 at a concrete store and zero-valued required field. -/
theorem C10_falsy_required_wit :
    ∃ res, validateMapped storeC10 [((("total").toList), Json.num 0)] (("m").toList) =
        some res ∧ res.1 = false ∧ (("total").toList) ∈ res.2 := by
  exact C10_falsy_required storeC10 _ (("m").toList) cfgC7req (("total").toList) (Json.num 0)
    (by rfl) (by decide) (by rfl) (Or.inl rfl)

/-! ### Digit-character and padding lemmas for the date round-trip -/

theorem digitChar_isDigit {k : Nat} (h : k ≤ 9) : (digitChar k).isDigit = true := by
  interval_cases k <;> rfl

theorem digitVal_digitChar {k : Nat} (h : k ≤ 9) : digitVal (digitChar k) = k := by
  interval_cases k <;> rfl

theorem pyIsSpace_digitChar {k : Nat} (h : k ≤ 9) : pyIsSpace (digitChar k) = false := by
  interval_cases k <;> rfl

theorem digitChar_ne_of_not_digit {k : Nat} {c : Char} (h : k ≤ 9)
    (hc : c.isDigit = false) : digitChar k ≠ c := by
  intro he
  rw [← he] at hc
  rw [digitChar_isDigit h] at hc
  cases hc

theorem pad2_div_le {n : Nat} (h : n ≤ 99) : n / 10 ≤ 9 := by omega
theorem mod10_le (n : Nat) : n % 10 ≤ 9 := by omega
theorem pad4_div_le {y : Nat} (h : y ≤ 9999) : y / 1000 ≤ 9 := by omega

theorem takeDigits_pad2 {n : Nat} (h : n ≤ 99) (rest : List Char) :
    takeDigits 2 (pad2 n ++ rest) = some (pad2 n, rest) := by
  simp [pad2, takeDigits, digitChar_isDigit (pad2_div_le h), digitChar_isDigit (mod10_le n)]

theorem takeDigits_pad4 {y : Nat} (h : y ≤ 9999) (rest : List Char) :
    takeDigits 4 (pad4 y ++ rest) = some (pad4 y, rest) := by
  simp [pad4, takeDigits, digitChar_isDigit (pad4_div_le h),
    digitChar_isDigit (mod10_le (y / 100)), digitChar_isDigit (mod10_le (y / 10)),
    digitChar_isDigit (mod10_le y)]

theorem natOfDigits_pad2 {n : Nat} (h : n ≤ 99) : natOfDigits (pad2 n) = n := by
  simp only [pad2, natOfDigits, List.foldl_cons, List.foldl_nil,
    digitVal_digitChar (pad2_div_le h), digitVal_digitChar (mod10_le n)]
  omega

theorem natOfDigits_pad4 {y : Nat} (h : y ≤ 9999) : natOfDigits (pad4 y) = y := by
  simp only [pad4, natOfDigits, List.foldl_cons, List.foldl_nil,
    digitVal_digitChar (pad4_div_le h), digitVal_digitChar (mod10_le (y / 100)),
    digitVal_digitChar (mod10_le (y / 10)), digitVal_digitChar (mod10_le y)]
  omega

/-! ### Template-matching lemmas -/

theorem matchToks_nil_nil (pr : DParts) : matchToks [] [] pr = some pr := rfl

theorem digitChar_eq0 : digitChar 0 = '0' := rfl
theorem digitChar_eq1 : digitChar 1 = '1' := rfl
theorem digitChar_eq2 : digitChar 2 = '2' := rfl
theorem digitChar_eq3 : digitChar 3 = '3' := rfl
theorem digitChar_eq4 : digitChar 4 = '4' := rfl
theorem digitChar_eq5 : digitChar 5 = '5' := rfl
theorem digitChar_eq6 : digitChar 6 = '6' := rfl
theorem digitChar_eq7 : digitChar 7 = '7' := rfl
theorem digitChar_eq8 : digitChar 8 = '8' := rfl
theorem digitChar_eq9 : digitChar 9 = '9' := rfl

theorem matchToks_lit_eq (c : Char) (ts : List DTok) (rest : List Char) (pr : DParts) :
    matchToks (.lit c :: ts) (c :: rest) pr = matchToks ts rest pr := by
  simp [matchToks]

theorem matchToks_lit_ne {c x : Char} (h : x ≠ c) (ts : List DTok) (rest : List Char)
    (pr : DParts) : matchToks (.lit c :: ts) (x :: rest) pr = none := by
  simp [matchToks, h]

theorem digitFails_nil : DigitFails [] := by
  intro x xs pr _
  simp [matchToks]

theorem digitFails_lit {c : Char} (hc : c.isDigit = false) (ts : List DTok) :
    DigitFails (.lit c :: ts) := by
  intro x xs pr hx
  refine matchToks_lit_ne (fun he => ?_) ts xs pr
  rw [he, hc] at hx
  cases hx

theorem not_space_of_digit {x : Char} (hx : x.isDigit = true) : pyIsSpace x = false := by
  by_cases h : pyIsSpace x = true
  · exfalso
    simp only [pyIsSpace, Bool.or_eq_true, decide_eq_true_eq] at h
    rcases h with ((((h | h) | h) | h) | h) | h <;> (subst h; simp at hx)
  · simpa using h

theorem matchToks_ws_fail {x : Char} (hx : pyIsSpace x = false) (ts : List DTok)
    (xs : List Char) (pr : DParts) : matchToks (.ws :: ts) (x :: xs) pr = none := by
  simp [matchToks, wsPlus, hx]

theorem digitFails_ws (ts : List DTok) : DigitFails (.ws :: ts) := by
  intro x xs pr hx
  exact matchToks_ws_fail (not_space_of_digit hx) ts xs pr

theorem matchToks_ws_eq (ts : List DTok) {rest : List Char} (pr : DParts)
    (hrest : rest.dropWhile pyIsSpace = rest) :
    matchToks (.ws :: ts) (' ' :: rest) pr = matchToks ts rest pr := by
  simp [matchToks, wsPlus, hrest]
  rfl

theorem matchToks_y4_eq {y : Nat} (h : y ≤ 9999) (ts : List DTok) (rest : List Char)
    (pr : DParts) :
    matchToks (.y4 :: ts) (pad4 y ++ rest) pr = matchToks ts rest ⟨pr.d, pr.m, y⟩ := by
  simp [matchToks, takeDigits_pad4 h, natOfDigits_pad4 h]

theorem matchToks_y2_eq {v : Nat} (h : v ≤ 99) (ts : List DTok) (rest : List Char)
    (pr : DParts) :
    matchToks (.y2 :: ts) (pad2 v ++ rest) pr = matchToks ts rest ⟨pr.d, pr.m, pivotY2 v⟩ := by
  simp [matchToks, takeDigits_pad2 h, natOfDigits_pad2 h]

theorem matchToks_day_eq {d : Nat} (h1 : 1 ≤ d) (h2 : d ≤ 31) (ts : List DTok)
    (hts : DigitFails ts) (rest : List Char) (pr : DParts) :
    matchToks (.day :: ts) (pad2 d ++ rest) pr = matchToks ts rest ⟨d, pr.m, pr.y⟩ := by
  have key : ∀ res, matchToks ts rest ⟨d, pr.m, pr.y⟩ = res →
      matchToks (.day :: ts) (pad2 d ++ rest) pr = res := by
    intro res hres
    cases res with
    | some b =>
      interval_cases d <;>
        simp_all [matchToks, dayAlts, firstSome, dayA1, dayA2, dayA3, dayA4, pad2,
          natOfDigits, digitVal, digitChar_eq0, digitChar_eq1, digitChar_eq2, digitChar_eq3,
          digitChar_eq4, digitChar_eq5, digitChar_eq6, digitChar_eq7, digitChar_eq8,
          digitChar_eq9]
    | none =>
      interval_cases d <;>
        simp_all [matchToks, dayAlts, firstSome, dayA1, dayA2, dayA3, dayA4, pad2,
          natOfDigits, digitVal, digitChar_eq0, digitChar_eq1, digitChar_eq2, digitChar_eq3,
          digitChar_eq4, digitChar_eq5, digitChar_eq6, digitChar_eq7, digitChar_eq8,
          digitChar_eq9, hts] <;>
        (try rw [hts _ _ _ (by decide)])
  exact key _ rfl

theorem matchToks_mon_eq {m : Nat} (h1 : 1 ≤ m) (h2 : m ≤ 12) (ts : List DTok)
    (hts : DigitFails ts) (rest : List Char) (pr : DParts) :
    matchToks (.mon :: ts) (pad2 m ++ rest) pr = matchToks ts rest ⟨pr.d, m, pr.y⟩ := by
  have key : ∀ res, matchToks ts rest ⟨pr.d, m, pr.y⟩ = res →
      matchToks (.mon :: ts) (pad2 m ++ rest) pr = res := by
    intro res hres
    cases res with
    | some b =>
      interval_cases m <;>
        simp_all [matchToks, monAlts, firstSome, monA1, dayA3, dayA4, pad2,
          natOfDigits, digitVal, digitChar_eq0, digitChar_eq1, digitChar_eq2, digitChar_eq3,
          digitChar_eq4, digitChar_eq5, digitChar_eq6, digitChar_eq7, digitChar_eq8,
          digitChar_eq9]
    | none =>
      interval_cases m <;>
        simp_all [matchToks, monAlts, firstSome, monA1, dayA3, dayA4, pad2,
          natOfDigits, digitVal, digitChar_eq0, digitChar_eq1, digitChar_eq2, digitChar_eq3,
          digitChar_eq4, digitChar_eq5, digitChar_eq6, digitChar_eq7, digitChar_eq8,
          digitChar_eq9, hts] <;>
        (try rw [hts _ _ _ (by decide)])
  exact key _ rfl

theorem matchToks_mon_gt12 {d : Nat} (h1 : 13 ≤ d) (h2 : d ≤ 31) (ts : List DTok)
    (hts : DigitFails ts) (rest : List Char) (pr : DParts) :
    matchToks (.mon :: ts) (pad2 d ++ rest) pr = none := by
  interval_cases d <;>
    simp_all [matchToks, monAlts, firstSome, monA1, dayA3, dayA4, pad2,
      natOfDigits, digitVal, digitChar_eq0, digitChar_eq1, digitChar_eq2, digitChar_eq3,
      digitChar_eq4, digitChar_eq5, digitChar_eq6, digitChar_eq7, digitChar_eq8,
      digitChar_eq9, hts] <;>
    (try rw [hts _ _ _ (by decide)])

theorem matchToks_monAbbr_eq {m : Nat} (h1 : 1 ≤ m) (h2 : m ≤ 12) (ts : List DTok)
    (rest : List Char) (pr : DParts) :
    matchToks (.monAbbr :: ts) (abbrDisp m ++ rest) pr = matchToks ts rest ⟨pr.d, m, pr.y⟩ := by
  have key : ∀ res, matchToks ts rest ⟨pr.d, m, pr.y⟩ = res →
      matchToks (.monAbbr :: ts) (abbrDisp m ++ rest) pr = res := by
    intro res hres
    cases res with
    | some b =>
      interval_cases m <;> simp_all [matchToks, abbrMonths, abbrDisp, firstSome, ciTake, upperC]
    | none =>
      interval_cases m <;> simp_all [matchToks, abbrMonths, abbrDisp, firstSome, ciTake, upperC]
  exact key _ rfl

theorem matchToks_monFull_eq {m : Nat} (h1 : 1 ≤ m) (h2 : m ≤ 12) (ts : List DTok)
    (rest : List Char) (pr : DParts) :
    matchToks (.monFull :: ts) (fullDisp m ++ rest) pr = matchToks ts rest ⟨pr.d, m, pr.y⟩ := by
  have key : ∀ res, matchToks ts rest ⟨pr.d, m, pr.y⟩ = res →
      matchToks (.monFull :: ts) (fullDisp m ++ rest) pr = res := by
    intro res hres
    cases res with
    | some b =>
      interval_cases m <;> simp_all [matchToks, fullMonths, fullDisp, firstSome, ciTake, upperC]
    | none =>
      interval_cases m <;> simp_all [matchToks, fullMonths, fullDisp, firstSome, ciTake, upperC]
  exact key _ rfl

/-- `%b` never matches the printed full month name except for May, where the
abbreviation and name coincide and `\s+` then fails on the following
letter. -/
theorem matchToks_fmt5_tail_on_full {m : Nat} (h1 : 1 ≤ m) (h2 : m ≤ 12) (h5 : m ≠ 5)
    (rest : List Char) (pr : DParts) :
    matchToks [.monAbbr, .ws, .y4] (fullDisp m ++ ' ' :: rest) pr = none := by
  interval_cases m <;>
    simp_all [matchToks, abbrMonths, abbrDisp, fullDisp, firstSome, ciTake, upperC, wsPlus,
      pyIsSpace]

/-- `%d` cannot start a four-digit year: every alternative leaves a digit
for the following (non-digit) template position. -/
theorem matchToks_day_pad4 (y : Nat) (ts : List DTok)
    (hts : DigitFails ts) (rest : List Char) (pr : DParts) :
    matchToks (.day :: ts) (pad4 y ++ rest) pr = none := by
  have hb := digitChar_isDigit (mod10_le (y / 100))
  have hc := digitChar_isDigit (mod10_le (y / 10))
  have k1 : ∀ xs pr', matchToks ts (digitChar (y / 100 % 10) :: xs) pr' = none :=
    fun xs pr' => hts _ xs pr' hb
  have k2 : ∀ xs pr', matchToks ts (digitChar (y / 10 % 10) :: xs) pr' = none :=
    fun xs pr' => hts _ xs pr' hc
  simp only [pad4, List.cons_append, List.nil_append, matchToks, dayAlts, firstSome,
    dayA1, dayA2, dayA3, dayA4]
  split_ifs <;> simp_all

/-- `%Y` requires four digits; a separator in the third position kills it. -/
theorem matchToks_y4_sep {s0 : Char} (hs0 : s0.isDigit = false) (c1 c2 : Char)
    (ts : List DTok) (rest : List Char) (pr : DParts) :
    matchToks (.y4 :: ts) (c1 :: c2 :: s0 :: rest) pr = none := by
  simp only [matchToks, takeDigits]
  split_ifs <;> simp_all [takeDigits, hs0]

/-- `%Y` cannot match a two-character input. -/
theorem matchToks_y4_pad2 (v : Nat) (ts : List DTok) (pr : DParts) :
    matchToks (.y4 :: ts) (pad2 v) pr = none := by
  simp only [matchToks, pad2, takeDigits]
  split_ifs <;> simp_all [takeDigits]

/-- `%y` at the end of the format leaves the last two year digits
unconsumed. -/
theorem matchToks_y2_pad4 {y : Nat} (h : y ≤ 9999) (pr : DParts) :
    matchToks [.y2] (pad4 y) pr = none := by
  have ha := digitChar_isDigit (pad4_div_le h)
  have hb := digitChar_isDigit (mod10_le (y / 100))
  simp [matchToks, pad4, takeDigits, ha, hb]

/-! ### `strip` is the identity on `strftime` output -/

theorem pyLstrip_cons {c : Char} {cs : List Char} (hc : pyIsSpace c = false) :
    pyLstrip (c :: cs) = c :: cs := by
  simp [pyLstrip, hc]

theorem pyRstrip_eq_self {s : List Char} (hl : pyIsSpace (s.getLastD ' ') = false) :
    pyRstrip s = s := by
  cases hrev : s.reverse with
  | nil =>
    have hs : s = [] := by simpa using congrArg List.reverse hrev
    subst hs
    rfl
  | cons c t =>
    have hlast : s.getLast? = some c := by
      rw [← List.head?_reverse, hrev]
      rfl
    have hc : s.getLastD ' ' = c := by
      rw [List.getLastD_eq_getLast?, hlast]
      rfl
    rw [hc] at hl
    unfold pyRstrip
    rw [hrev, List.dropWhile_cons, hl]
    simp only [Bool.false_eq_true, if_false, reduceIte]
    rw [← hrev, List.reverse_reverse]

theorem getLastD_append_pad4 (xs : List Char) (y : Nat) (c : Char) :
    ((xs ++ pad4 y).getLastD c) = digitChar (y % 10) := by
  rw [show xs ++ pad4 y =
      (xs ++ [digitChar (y / 1000), digitChar (y / 100 % 10), digitChar (y / 10 % 10)]) ++
        [digitChar (y % 10)] by simp [pad4]]
  exact List.getLastD_concat _ _ _

theorem getLastD_append_pad2 (xs : List Char) (n : Nat) (c : Char) :
    ((xs ++ pad2 n).getLastD c) = digitChar (n % 10) := by
  rw [show xs ++ pad2 n = (xs ++ [digitChar (n / 10)]) ++ [digitChar (n % 10)] by simp [pad2]]
  exact List.getLastD_concat _ _ _

/-- `strftime` output of the formats: explicit string shapes. -/
theorem strftime_DMY (p : DParts) :
    strftime p fmtDMY = pad2 p.d ++ '/' :: (pad2 p.m ++ '/' :: pad4 p.y) := by
  simp [strftime, fmtDMY, fmtTok]

theorem strftime_DMYd (p : DParts) :
    strftime p fmtDMYd = pad2 p.d ++ '-' :: (pad2 p.m ++ '-' :: pad4 p.y) := by
  simp [strftime, fmtDMYd, fmtTok]

theorem strftime_YMDd (p : DParts) :
    strftime p fmtYMDd = pad4 p.y ++ '-' :: (pad2 p.m ++ '-' :: pad2 p.d) := by
  simp [strftime, fmtYMDd, fmtTok]

theorem strftime_DMy (p : DParts) :
    strftime p fmtDMy = pad2 p.d ++ '/' :: (pad2 p.m ++ '/' :: pad2 (p.y % 100)) := by
  simp [strftime, fmtDMy, fmtTok]

theorem strftime_DbY (p : DParts) :
    strftime p fmtDbY = pad2 p.d ++ ' ' :: (abbrDisp p.m ++ ' ' :: pad4 p.y) := by
  simp [strftime, fmtDbY, fmtTok]

theorem strftime_DBY (p : DParts) :
    strftime p fmtDBY = pad2 p.d ++ ' ' :: (fullDisp p.m ++ ' ' :: pad4 p.y) := by
  simp [strftime, fmtDBY, fmtTok]

theorem strftime_YMD (p : DParts) :
    strftime p fmtYMD = pad4 p.y ++ '/' :: (pad2 p.m ++ '/' :: pad2 p.d) := by
  simp [strftime, fmtYMD, fmtTok]

theorem strftime_MDY (p : DParts) :
    strftime p fmtMDY = pad2 p.m ++ '/' :: (pad2 p.d ++ '/' :: pad4 p.y) := by
  simp [strftime, fmtMDY, fmtTok]

theorem daysInMonth_le (y m : Nat) : daysInMonth y m ≤ 31 := by
  unfold daysInMonth
  split_ifs <;> omega

theorem daysInMonth_ge (y m : Nat) : 28 ≤ daysInMonth y m := by
  unfold daysInMonth
  split_ifs <;> omega

theorem validDate_true {p : DParts} (h1 : 1 ≤ p.y) (h2 : p.y ≤ 9999) (h3 : 1 ≤ p.m)
    (h4 : p.m ≤ 12) (h5 : 1 ≤ p.d) (h6 : p.d ≤ daysInMonth p.y p.m) :
    validDate p = true := by
  simp only [validDate, Bool.and_eq_true, decide_eq_true_eq]
  exact ⟨⟨⟨⟨⟨h1, h2⟩, h3⟩, h4⟩, h5⟩, h6⟩

theorem matchToks_day_end {d : Nat} (h1 : 1 ≤ d) (h2 : d ≤ 31) (pr : DParts) :
    matchToks [.day] (pad2 d) pr = some ⟨d, pr.m, pr.y⟩ := by
  have h := matchToks_day_eq h1 h2 [] digitFails_nil [] pr
  rwa [List.append_nil, matchToks_nil_nil] at h

theorem matchToks_y4_end {y : Nat} (h : y ≤ 9999) (pr : DParts) :
    matchToks [.y4] (pad4 y) pr = some ⟨pr.d, pr.m, y⟩ := by
  have h2 := matchToks_y4_eq h [] [] pr
  rwa [List.append_nil, matchToks_nil_nil] at h2

theorem matchToks_y2_end {v : Nat} (h : v ≤ 99) (pr : DParts) :
    matchToks [.y2] (pad2 v) pr = some ⟨pr.d, pr.m, pivotY2 v⟩ := by
  have h2 := matchToks_y2_eq h [] [] pr
  rwa [List.append_nil, matchToks_nil_nil] at h2

theorem strptimeF_none_of_match {toks : List DTok} {s : List Char}
    (h : matchToks toks s ⟨1, 1, 1900⟩ = none) : strptimeF toks s = none := by
  simp [strptimeF, h]

theorem firstSome_cons_none {α β : Type} (f : α → Option β) (a : α) (l : List α)
    (h : f a = none) : firstSome f (a :: l) = firstSome f l := by
  simp [firstSome, h]

theorem pyStrip_eq_self_digit_ends {s : List Char} {k1 k2 : Nat}
    (hk1 : k1 ≤ 9) (hk2 : k2 ≤ 9)
    (hhead : s.head? = some (digitChar k1))
    (hlast : s.getLastD ' ' = digitChar k2) :
    pyStrip s = s := by
  cases s with
  | nil => cases hhead
  | cons c cs =>
    have hc : c = digitChar k1 := by simpa using hhead
    unfold pyStrip
    rw [pyLstrip_cons (by rw [hc]; exact pyIsSpace_digitChar hk1)]
    exact pyRstrip_eq_self (by rw [hlast]; exact pyIsSpace_digitChar hk2)

theorem strip_strftime_DMY (p : DParts) (hd : p.d ≤ 99) :
    pyStrip (strftime p fmtDMY) = strftime p fmtDMY := by
  rw [strftime_DMY]
  refine pyStrip_eq_self_digit_ends (pad2_div_le hd) (mod10_le p.y) ?_ ?_
  · simp [pad2]
  · rw [show pad2 p.d ++ '/' :: (pad2 p.m ++ '/' :: pad4 p.y) =
        (pad2 p.d ++ '/' :: pad2 p.m ++ ['/']) ++ pad4 p.y by simp]
    exact getLastD_append_pad4 _ _ _

theorem roundtrip_DMY (p : DParts) (hd1 : 1 ≤ p.d) (hdm : p.d ≤ daysInMonth p.y p.m)
    (hm1 : 1 ≤ p.m) (hm12 : p.m ≤ 12) (hy1 : 1000 ≤ p.y) (hy2 : p.y ≤ 9999) :
    normalizeDate (strftime p fmtDMY) fmtDMY = some (strftime p fmtDMY) := by
  have hd31 : p.d ≤ 31 := le_trans hdm (daysInMonth_le _ _)
  have hd99 : p.d ≤ 99 := by omega
  have hstrip := strip_strftime_DMY p hd99
  have hne : strftime p fmtDMY ≠ [] := by
    rw [strftime_DMY]
    simp [pad2]
  have hmatch : matchToks fmtDMY (strftime p fmtDMY) ⟨1, 1, 1900⟩ = some ⟨p.d, p.m, p.y⟩ := by
    rw [strftime_DMY]
    rw [show fmtDMY = .day :: .lit '/' :: .mon :: .lit '/' :: [.y4] from rfl]
    rw [matchToks_day_eq hd1 hd31 _ (digitFails_lit (by decide) _) _ _,
      matchToks_lit_eq,
      matchToks_mon_eq hm1 hm12 _ (digitFails_lit (by decide) _) _ _,
      matchToks_lit_eq,
      matchToks_y4_end hy2]
  have hv : validDate p = true := validDate_true (by omega) hy2 hm1 hm12 hd1 hdm
  have hparse : strptimeF fmtDMY (strftime p fmtDMY) = some p := by
    unfold strptimeF
    rw [hmatch]
    show (if validDate p = true then some p else none) = some p
    rw [hv]
    rfl
  simp only [normalizeDate, hstrip, if_neg hne, inputDateFormats]
  rw [firstSome_cons_some (fun fmt => strptimeF fmt (strftime p fmtDMY)) fmtDMY
    [fmtDMYd, fmtYMDd, fmtDMy, fmtDbY, fmtDBY, fmtYMD, fmtMDY] p hparse]

theorem pad2_cons (n : Nat) (rest : List Char) :
    pad2 n ++ rest = digitChar (n / 10) :: digitChar (n % 10) :: rest := by
  simp [pad2]

theorem strip_strftime_DMYd (p : DParts) (hd : p.d ≤ 99) :
    pyStrip (strftime p fmtDMYd) = strftime p fmtDMYd := by
  rw [strftime_DMYd]
  refine pyStrip_eq_self_digit_ends (pad2_div_le hd) (mod10_le p.y) ?_ ?_
  · simp [pad2]
  · rw [show pad2 p.d ++ '-' :: (pad2 p.m ++ '-' :: pad4 p.y) =
        (pad2 p.d ++ '-' :: pad2 p.m ++ ['-']) ++ pad4 p.y by simp]
    exact getLastD_append_pad4 _ _ _

theorem roundtrip_DMYd (p : DParts) (hd1 : 1 ≤ p.d) (hdm : p.d ≤ daysInMonth p.y p.m)
    (hm1 : 1 ≤ p.m) (hm12 : p.m ≤ 12) (hy1 : 1000 ≤ p.y) (hy2 : p.y ≤ 9999) :
    normalizeDate (strftime p fmtDMYd) fmtDMYd = some (strftime p fmtDMYd) := by
  have hd31 : p.d ≤ 31 := le_trans hdm (daysInMonth_le _ _)
  have hd99 : p.d ≤ 99 := by omega
  have hstrip := strip_strftime_DMYd p hd99
  have hne : strftime p fmtDMYd ≠ [] := by
    rw [strftime_DMYd]
    simp [pad2]
  have hf1 : strptimeF fmtDMY (strftime p fmtDMYd) = none := by
    apply strptimeF_none_of_match
    rw [strftime_DMYd]
    rw [show fmtDMY = .day :: .lit '/' :: .mon :: .lit '/' :: [.y4] from rfl]
    rw [matchToks_day_eq hd1 hd31 _ (digitFails_lit (by decide) _) _ _]
    exact matchToks_lit_ne (by decide) _ _ _
  have hmatch : matchToks fmtDMYd (strftime p fmtDMYd) ⟨1, 1, 1900⟩ = some ⟨p.d, p.m, p.y⟩ := by
    rw [strftime_DMYd]
    rw [show fmtDMYd = .day :: .lit '-' :: .mon :: .lit '-' :: [.y4] from rfl]
    rw [matchToks_day_eq hd1 hd31 _ (digitFails_lit (by decide) _) _ _,
      matchToks_lit_eq,
      matchToks_mon_eq hm1 hm12 _ (digitFails_lit (by decide) _) _ _,
      matchToks_lit_eq,
      matchToks_y4_end hy2]
  have hv : validDate p = true := validDate_true (by omega) hy2 hm1 hm12 hd1 hdm
  have hparse : strptimeF fmtDMYd (strftime p fmtDMYd) = some p := by
    unfold strptimeF
    rw [hmatch]
    show (if validDate p = true then some p else none) = some p
    rw [hv]
    rfl
  simp only [normalizeDate, hstrip, if_neg hne, inputDateFormats]
  rw [firstSome_cons_none (fun fmt => strptimeF fmt (strftime p fmtDMYd)) fmtDMY _ hf1]
  rw [firstSome_cons_some (fun fmt => strptimeF fmt (strftime p fmtDMYd)) fmtDMYd
    [fmtYMDd, fmtDMy, fmtDbY, fmtDBY, fmtYMD, fmtMDY] p hparse]

theorem strip_strftime_YMDd (p : DParts) (hy : p.y ≤ 9999) :
    pyStrip (strftime p fmtYMDd) = strftime p fmtYMDd := by
  rw [strftime_YMDd]
  refine pyStrip_eq_self_digit_ends (pad4_div_le hy) (mod10_le p.d) ?_ ?_
  · simp [pad4]
  · rw [show pad4 p.y ++ '-' :: (pad2 p.m ++ '-' :: pad2 p.d) =
        (pad4 p.y ++ '-' :: pad2 p.m ++ ['-']) ++ pad2 p.d by simp]
    exact getLastD_append_pad2 _ _ _

theorem roundtrip_YMDd (p : DParts) (hd1 : 1 ≤ p.d) (hdm : p.d ≤ daysInMonth p.y p.m)
    (hm1 : 1 ≤ p.m) (hm12 : p.m ≤ 12) (hy1 : 1000 ≤ p.y) (hy2 : p.y ≤ 9999) :
    normalizeDate (strftime p fmtYMDd) fmtYMDd = some (strftime p fmtYMDd) := by
  have hd31 : p.d ≤ 31 := le_trans hdm (daysInMonth_le _ _)
  have hstrip := strip_strftime_YMDd p hy2
  have hne : strftime p fmtYMDd ≠ [] := by
    rw [strftime_YMDd]
    simp [pad4]
  have hf1 : strptimeF fmtDMY (strftime p fmtYMDd) = none := by
    apply strptimeF_none_of_match
    rw [strftime_YMDd]
    exact matchToks_day_pad4 _ _ (digitFails_lit (by decide) _) _ _
  have hf2 : strptimeF fmtDMYd (strftime p fmtYMDd) = none := by
    apply strptimeF_none_of_match
    rw [strftime_YMDd]
    exact matchToks_day_pad4 _ _ (digitFails_lit (by decide) _) _ _
  have hmatch : matchToks fmtYMDd (strftime p fmtYMDd) ⟨1, 1, 1900⟩ = some ⟨p.d, p.m, p.y⟩ := by
    rw [strftime_YMDd]
    rw [show fmtYMDd = .y4 :: .lit '-' :: .mon :: .lit '-' :: [.day] from rfl]
    rw [matchToks_y4_eq hy2,
      matchToks_lit_eq,
      matchToks_mon_eq hm1 hm12 _ (digitFails_lit (by decide) _) _ _,
      matchToks_lit_eq,
      matchToks_day_end hd1 hd31]
  have hv : validDate p = true := validDate_true (by omega) hy2 hm1 hm12 hd1 hdm
  have hparse : strptimeF fmtYMDd (strftime p fmtYMDd) = some p := by
    unfold strptimeF
    rw [hmatch]
    show (if validDate p = true then some p else none) = some p
    rw [hv]
    rfl
  simp only [normalizeDate, hstrip, if_neg hne, inputDateFormats]
  rw [firstSome_cons_none (fun fmt => strptimeF fmt (strftime p fmtYMDd)) fmtDMY _ hf1,
    firstSome_cons_none (fun fmt => strptimeF fmt (strftime p fmtYMDd)) fmtDMYd _ hf2]
  rw [firstSome_cons_some (fun fmt => strptimeF fmt (strftime p fmtYMDd)) fmtYMDd
    [fmtDMy, fmtDbY, fmtDBY, fmtYMD, fmtMDY] p hparse]


theorem pivotY2_mod {y : Nat} (h1 : 1969 ≤ y) (h2 : y ≤ 2068) : pivotY2 (y % 100) = y := by
  unfold pivotY2
  split_ifs <;> omega

theorem strip_strftime_DMy (p : DParts) (hd : p.d ≤ 99) :
    pyStrip (strftime p fmtDMy) = strftime p fmtDMy := by
  rw [strftime_DMy]
  refine pyStrip_eq_self_digit_ends (pad2_div_le hd) (mod10_le (p.y % 100)) ?_ ?_
  · simp [pad2]
  · rw [show pad2 p.d ++ '/' :: (pad2 p.m ++ '/' :: pad2 (p.y % 100)) =
        (pad2 p.d ++ '/' :: pad2 p.m ++ ['/']) ++ pad2 (p.y % 100) by simp]
    exact getLastD_append_pad2 _ _ _

theorem roundtrip_DMy (p : DParts) (hd1 : 1 ≤ p.d) (hdm : p.d ≤ daysInMonth p.y p.m)
    (hm1 : 1 ≤ p.m) (hm12 : p.m ≤ 12) (hy1 : 1969 ≤ p.y) (hy2 : p.y ≤ 2068) :
    normalizeDate (strftime p fmtDMy) fmtDMy = some (strftime p fmtDMy) := by
  have hd31 : p.d ≤ 31 := le_trans hdm (daysInMonth_le _ _)
  have hd99 : p.d ≤ 99 := by omega
  have hstrip := strip_strftime_DMy p hd99
  have hne : strftime p fmtDMy ≠ [] := by
    rw [strftime_DMy]
    simp [pad2]
  have hf1 : strptimeF fmtDMY (strftime p fmtDMy) = none := by
    apply strptimeF_none_of_match
    rw [strftime_DMy]
    rw [show fmtDMY = .day :: .lit '/' :: .mon :: .lit '/' :: [.y4] from rfl]
    rw [matchToks_day_eq hd1 hd31 _ (digitFails_lit (by decide) _) _ _,
      matchToks_lit_eq,
      matchToks_mon_eq hm1 hm12 _ (digitFails_lit (by decide) _) _ _,
      matchToks_lit_eq]
    exact matchToks_y4_pad2 _ _ _
  have hf2 : strptimeF fmtDMYd (strftime p fmtDMy) = none := by
    apply strptimeF_none_of_match
    rw [strftime_DMy]
    rw [show fmtDMYd = .day :: .lit '-' :: .mon :: .lit '-' :: [.y4] from rfl]
    rw [matchToks_day_eq hd1 hd31 _ (digitFails_lit (by decide) _) _ _]
    exact matchToks_lit_ne (by decide) _ _ _
  have hf3 : strptimeF fmtYMDd (strftime p fmtDMy) = none := by
    apply strptimeF_none_of_match
    rw [strftime_DMy, pad2_cons]
    exact matchToks_y4_sep (by decide) _ _ _ _ _
  have hmatch : matchToks fmtDMy (strftime p fmtDMy) ⟨1, 1, 1900⟩ = some ⟨p.d, p.m, p.y⟩ := by
    rw [strftime_DMy]
    rw [show fmtDMy = .day :: .lit '/' :: .mon :: .lit '/' :: [.y2] from rfl]
    rw [matchToks_day_eq hd1 hd31 _ (digitFails_lit (by decide) _) _ _,
      matchToks_lit_eq,
      matchToks_mon_eq hm1 hm12 _ (digitFails_lit (by decide) _) _ _,
      matchToks_lit_eq,
      matchToks_y2_end (by omega : p.y % 100 ≤ 99)]
    rw [pivotY2_mod hy1 hy2]
  have hv : validDate p = true := validDate_true (by omega) (by omega) hm1 hm12 hd1 hdm
  have hparse : strptimeF fmtDMy (strftime p fmtDMy) = some p := by
    unfold strptimeF
    rw [hmatch]
    show (if validDate p = true then some p else none) = some p
    rw [hv]
    rfl
  simp only [normalizeDate, hstrip, if_neg hne, inputDateFormats]
  rw [firstSome_cons_none (fun fmt => strptimeF fmt (strftime p fmtDMy)) fmtDMY _ hf1,
    firstSome_cons_none (fun fmt => strptimeF fmt (strftime p fmtDMy)) fmtDMYd _ hf2,
    firstSome_cons_none (fun fmt => strptimeF fmt (strftime p fmtDMy)) fmtYMDd _ hf3]
  rw [firstSome_cons_some (fun fmt => strptimeF fmt (strftime p fmtDMy)) fmtDMy
    [fmtDbY, fmtDBY, fmtYMD, fmtMDY] p hparse]

theorem dropWhile_abbr {m : Nat} (h1 : 1 ≤ m) (h2 : m ≤ 12) (rest : List Char) :
    (abbrDisp m ++ rest).dropWhile pyIsSpace = abbrDisp m ++ rest := by
  interval_cases m <;> simp [abbrDisp, List.dropWhile, pyIsSpace]

theorem dropWhile_full {m : Nat} (h1 : 1 ≤ m) (h2 : m ≤ 12) (rest : List Char) :
    (fullDisp m ++ rest).dropWhile pyIsSpace = fullDisp m ++ rest := by
  interval_cases m <;> simp [fullDisp, List.dropWhile, pyIsSpace]

theorem dropWhile_pad4 {y : Nat} (h : y ≤ 9999) :
    (pad4 y).dropWhile pyIsSpace = pad4 y := by
  simp [pad4, List.dropWhile, pyIsSpace_digitChar (pad4_div_le h)]

theorem strip_strftime_DbY (p : DParts) (hd : p.d ≤ 99) :
    pyStrip (strftime p fmtDbY) = strftime p fmtDbY := by
  rw [strftime_DbY]
  refine pyStrip_eq_self_digit_ends (pad2_div_le hd) (mod10_le p.y) ?_ ?_
  · simp [pad2]
  · rw [show pad2 p.d ++ ' ' :: (abbrDisp p.m ++ ' ' :: pad4 p.y) =
        (pad2 p.d ++ ' ' :: abbrDisp p.m ++ [' ']) ++ pad4 p.y by simp]
    exact getLastD_append_pad4 _ _ _

theorem roundtrip_DbY (p : DParts) (hd1 : 1 ≤ p.d) (hdm : p.d ≤ daysInMonth p.y p.m)
    (hm1 : 1 ≤ p.m) (hm12 : p.m ≤ 12) (hy1 : 1000 ≤ p.y) (hy2 : p.y ≤ 9999) :
    normalizeDate (strftime p fmtDbY) fmtDbY = some (strftime p fmtDbY) := by
  have hd31 : p.d ≤ 31 := le_trans hdm (daysInMonth_le _ _)
  have hd99 : p.d ≤ 99 := by omega
  have hstrip := strip_strftime_DbY p hd99
  have hne : strftime p fmtDbY ≠ [] := by
    rw [strftime_DbY]
    simp [pad2]
  have hf1 : strptimeF fmtDMY (strftime p fmtDbY) = none := by
    apply strptimeF_none_of_match
    rw [strftime_DbY]
    rw [show fmtDMY = .day :: .lit '/' :: .mon :: .lit '/' :: [.y4] from rfl]
    rw [matchToks_day_eq hd1 hd31 _ (digitFails_lit (by decide) _) _ _]
    exact matchToks_lit_ne (by decide) _ _ _
  have hf2 : strptimeF fmtDMYd (strftime p fmtDbY) = none := by
    apply strptimeF_none_of_match
    rw [strftime_DbY]
    rw [show fmtDMYd = .day :: .lit '-' :: .mon :: .lit '-' :: [.y4] from rfl]
    rw [matchToks_day_eq hd1 hd31 _ (digitFails_lit (by decide) _) _ _]
    exact matchToks_lit_ne (by decide) _ _ _
  have hf3 : strptimeF fmtYMDd (strftime p fmtDbY) = none := by
    apply strptimeF_none_of_match
    rw [strftime_DbY, pad2_cons]
    exact matchToks_y4_sep (by decide) _ _ _ _ _
  have hf4 : strptimeF fmtDMy (strftime p fmtDbY) = none := by
    apply strptimeF_none_of_match
    rw [strftime_DbY]
    rw [show fmtDMy = .day :: .lit '/' :: .mon :: .lit '/' :: [.y2] from rfl]
    rw [matchToks_day_eq hd1 hd31 _ (digitFails_lit (by decide) _) _ _]
    exact matchToks_lit_ne (by decide) _ _ _
  have hmatch : matchToks fmtDbY (strftime p fmtDbY) ⟨1, 1, 1900⟩ = some ⟨p.d, p.m, p.y⟩ := by
    rw [strftime_DbY]
    rw [show fmtDbY = .day :: .ws :: .monAbbr :: .ws :: [.y4] from rfl]
    rw [matchToks_day_eq hd1 hd31 _ (digitFails_ws _) _ _,
      matchToks_ws_eq _ _ (dropWhile_abbr hm1 hm12 _),
      matchToks_monAbbr_eq hm1 hm12 _ _ _,
      matchToks_ws_eq _ _ (dropWhile_pad4 hy2),
      matchToks_y4_end hy2]
  have hv : validDate p = true := validDate_true (by omega) hy2 hm1 hm12 hd1 hdm
  have hparse : strptimeF fmtDbY (strftime p fmtDbY) = some p := by
    unfold strptimeF
    rw [hmatch]
    show (if validDate p = true then some p else none) = some p
    rw [hv]
    rfl
  simp only [normalizeDate, hstrip, if_neg hne, inputDateFormats]
  rw [firstSome_cons_none (fun fmt => strptimeF fmt (strftime p fmtDbY)) fmtDMY _ hf1,
    firstSome_cons_none (fun fmt => strptimeF fmt (strftime p fmtDbY)) fmtDMYd _ hf2,
    firstSome_cons_none (fun fmt => strptimeF fmt (strftime p fmtDbY)) fmtYMDd _ hf3,
    firstSome_cons_none (fun fmt => strptimeF fmt (strftime p fmtDbY)) fmtDMy _ hf4]
  rw [firstSome_cons_some (fun fmt => strptimeF fmt (strftime p fmtDbY)) fmtDbY
    [fmtDBY, fmtYMD, fmtMDY] p hparse]


theorem strip_strftime_DBY (p : DParts) (hd : p.d ≤ 99) :
    pyStrip (strftime p fmtDBY) = strftime p fmtDBY := by
  rw [strftime_DBY]
  refine pyStrip_eq_self_digit_ends (pad2_div_le hd) (mod10_le p.y) ?_ ?_
  · simp [pad2]
  · rw [show pad2 p.d ++ ' ' :: (fullDisp p.m ++ ' ' :: pad4 p.y) =
        (pad2 p.d ++ ' ' :: fullDisp p.m ++ [' ']) ++ pad4 p.y by simp]
    exact getLastD_append_pad4 _ _ _

theorem roundtrip_DBY (p : DParts) (hd1 : 1 ≤ p.d) (hdm : p.d ≤ daysInMonth p.y p.m)
    (hm1 : 1 ≤ p.m) (hm12 : p.m ≤ 12) (hy1 : 1000 ≤ p.y) (hy2 : p.y ≤ 9999) :
    normalizeDate (strftime p fmtDBY) fmtDBY = some (strftime p fmtDBY) := by
  have hd31 : p.d ≤ 31 := le_trans hdm (daysInMonth_le _ _)
  have hd99 : p.d ≤ 99 := by omega
  have hstrip := strip_strftime_DBY p hd99
  have hne : strftime p fmtDBY ≠ [] := by
    rw [strftime_DBY]
    simp [pad2]
  have hf1 : strptimeF fmtDMY (strftime p fmtDBY) = none := by
    apply strptimeF_none_of_match
    rw [strftime_DBY]
    rw [show fmtDMY = .day :: .lit '/' :: .mon :: .lit '/' :: [.y4] from rfl]
    rw [matchToks_day_eq hd1 hd31 _ (digitFails_lit (by decide) _) _ _]
    exact matchToks_lit_ne (by decide) _ _ _
  have hf2 : strptimeF fmtDMYd (strftime p fmtDBY) = none := by
    apply strptimeF_none_of_match
    rw [strftime_DBY]
    rw [show fmtDMYd = .day :: .lit '-' :: .mon :: .lit '-' :: [.y4] from rfl]
    rw [matchToks_day_eq hd1 hd31 _ (digitFails_lit (by decide) _) _ _]
    exact matchToks_lit_ne (by decide) _ _ _
  have hf3 : strptimeF fmtYMDd (strftime p fmtDBY) = none := by
    apply strptimeF_none_of_match
    rw [strftime_DBY, pad2_cons]
    exact matchToks_y4_sep (by decide) _ _ _ _ _
  have hf4 : strptimeF fmtDMy (strftime p fmtDBY) = none := by
    apply strptimeF_none_of_match
    rw [strftime_DBY]
    rw [show fmtDMy = .day :: .lit '/' :: .mon :: .lit '/' :: [.y2] from rfl]
    rw [matchToks_day_eq hd1 hd31 _ (digitFails_lit (by decide) _) _ _]
    exact matchToks_lit_ne (by decide) _ _ _
  have hv : validDate p = true := validDate_true (by omega) hy2 hm1 hm12 hd1 hdm
  rcases eq_or_ne p.m 5 with h5 | h5
  · have hmatch : matchToks fmtDbY (strftime p fmtDBY) ⟨1, 1, 1900⟩ =
        some ⟨p.d, p.m, p.y⟩ := by
      rw [strftime_DBY]
      rw [show fmtDbY = .day :: .ws :: .monAbbr :: .ws :: [.y4] from rfl]
      rw [matchToks_day_eq hd1 hd31 _ (digitFails_ws _) _ _,
        matchToks_ws_eq _ _ (dropWhile_full hm1 hm12 _)]
      rw [h5, show fullDisp 5 = abbrDisp 5 from rfl]
      rw [matchToks_monAbbr_eq (by omega) (by omega) _ _ _,
        matchToks_ws_eq _ _ (dropWhile_pad4 hy2),
        matchToks_y4_end hy2]
    have hparse : strptimeF fmtDbY (strftime p fmtDBY) = some p := by
      unfold strptimeF
      rw [hmatch]
      show (if validDate p = true then some p else none) = some p
      rw [hv]
      rfl
    simp only [normalizeDate, hstrip, if_neg hne, inputDateFormats]
    rw [firstSome_cons_none (fun fmt => strptimeF fmt (strftime p fmtDBY)) fmtDMY _ hf1,
      firstSome_cons_none (fun fmt => strptimeF fmt (strftime p fmtDBY)) fmtDMYd _ hf2,
      firstSome_cons_none (fun fmt => strptimeF fmt (strftime p fmtDBY)) fmtYMDd _ hf3,
      firstSome_cons_none (fun fmt => strptimeF fmt (strftime p fmtDBY)) fmtDMy _ hf4]
    rw [firstSome_cons_some (fun fmt => strptimeF fmt (strftime p fmtDBY)) fmtDbY
      [fmtDBY, fmtYMD, fmtMDY] p hparse]
  · have hf5 : strptimeF fmtDbY (strftime p fmtDBY) = none := by
      apply strptimeF_none_of_match
      rw [strftime_DBY]
      rw [show fmtDbY = .day :: .ws :: .monAbbr :: .ws :: [.y4] from rfl]
      rw [matchToks_day_eq hd1 hd31 _ (digitFails_ws _) _ _,
        matchToks_ws_eq _ _ (dropWhile_full hm1 hm12 _)]
      exact matchToks_fmt5_tail_on_full hm1 hm12 h5 _ _
    have hmatch : matchToks fmtDBY (strftime p fmtDBY) ⟨1, 1, 1900⟩ =
        some ⟨p.d, p.m, p.y⟩ := by
      rw [strftime_DBY]
      rw [show fmtDBY = .day :: .ws :: .monFull :: .ws :: [.y4] from rfl]
      rw [matchToks_day_eq hd1 hd31 _ (digitFails_ws _) _ _,
        matchToks_ws_eq _ _ (dropWhile_full hm1 hm12 _),
        matchToks_monFull_eq hm1 hm12 _ _ _,
        matchToks_ws_eq _ _ (dropWhile_pad4 hy2),
        matchToks_y4_end hy2]
    have hparse : strptimeF fmtDBY (strftime p fmtDBY) = some p := by
      unfold strptimeF
      rw [hmatch]
      show (if validDate p = true then some p else none) = some p
      rw [hv]
      rfl
    simp only [normalizeDate, hstrip, if_neg hne, inputDateFormats]
    rw [firstSome_cons_none (fun fmt => strptimeF fmt (strftime p fmtDBY)) fmtDMY _ hf1,
      firstSome_cons_none (fun fmt => strptimeF fmt (strftime p fmtDBY)) fmtDMYd _ hf2,
      firstSome_cons_none (fun fmt => strptimeF fmt (strftime p fmtDBY)) fmtYMDd _ hf3,
      firstSome_cons_none (fun fmt => strptimeF fmt (strftime p fmtDBY)) fmtDMy _ hf4,
      firstSome_cons_none (fun fmt => strptimeF fmt (strftime p fmtDBY)) fmtDbY _ hf5]
    rw [firstSome_cons_some (fun fmt => strptimeF fmt (strftime p fmtDBY)) fmtDBY
      [fmtYMD, fmtMDY] p hparse]


theorem strip_strftime_YMD (p : DParts) (hy : p.y ≤ 9999) :
    pyStrip (strftime p fmtYMD) = strftime p fmtYMD := by
  rw [strftime_YMD]
  refine pyStrip_eq_self_digit_ends (pad4_div_le hy) (mod10_le p.d) ?_ ?_
  · simp [pad4]
  · rw [show pad4 p.y ++ '/' :: (pad2 p.m ++ '/' :: pad2 p.d) =
        (pad4 p.y ++ '/' :: pad2 p.m ++ ['/']) ++ pad2 p.d by simp]
    exact getLastD_append_pad2 _ _ _

theorem roundtrip_YMD (p : DParts) (hd1 : 1 ≤ p.d) (hdm : p.d ≤ daysInMonth p.y p.m)
    (hm1 : 1 ≤ p.m) (hm12 : p.m ≤ 12) (hy1 : 1000 ≤ p.y) (hy2 : p.y ≤ 9999) :
    normalizeDate (strftime p fmtYMD) fmtYMD = some (strftime p fmtYMD) := by
  have hd31 : p.d ≤ 31 := le_trans hdm (daysInMonth_le _ _)
  have hstrip := strip_strftime_YMD p hy2
  have hne : strftime p fmtYMD ≠ [] := by
    rw [strftime_YMD]
    simp [pad4]
  have hf1 : strptimeF fmtDMY (strftime p fmtYMD) = none := by
    apply strptimeF_none_of_match
    rw [strftime_YMD]
    exact matchToks_day_pad4 _ _ (digitFails_lit (by decide) _) _ _
  have hf2 : strptimeF fmtDMYd (strftime p fmtYMD) = none := by
    apply strptimeF_none_of_match
    rw [strftime_YMD]
    exact matchToks_day_pad4 _ _ (digitFails_lit (by decide) _) _ _
  have hf3 : strptimeF fmtYMDd (strftime p fmtYMD) = none := by
    apply strptimeF_none_of_match
    rw [strftime_YMD]
    rw [show fmtYMDd = .y4 :: .lit '-' :: .mon :: .lit '-' :: [.day] from rfl]
    rw [matchToks_y4_eq hy2 _ _ _]
    exact matchToks_lit_ne (by decide) _ _ _
  have hf4 : strptimeF fmtDMy (strftime p fmtYMD) = none := by
    apply strptimeF_none_of_match
    rw [strftime_YMD]
    exact matchToks_day_pad4 _ _ (digitFails_lit (by decide) _) _ _
  have hf5 : strptimeF fmtDbY (strftime p fmtYMD) = none := by
    apply strptimeF_none_of_match
    rw [strftime_YMD]
    exact matchToks_day_pad4 _ _ (digitFails_ws _) _ _
  have hf6 : strptimeF fmtDBY (strftime p fmtYMD) = none := by
    apply strptimeF_none_of_match
    rw [strftime_YMD]
    exact matchToks_day_pad4 _ _ (digitFails_ws _) _ _
  have hmatch : matchToks fmtYMD (strftime p fmtYMD) ⟨1, 1, 1900⟩ = some ⟨p.d, p.m, p.y⟩ := by
    rw [strftime_YMD]
    rw [show fmtYMD = .y4 :: .lit '/' :: .mon :: .lit '/' :: [.day] from rfl]
    rw [matchToks_y4_eq hy2 _ _ _,
      matchToks_lit_eq,
      matchToks_mon_eq hm1 hm12 _ (digitFails_lit (by decide) _) _ _,
      matchToks_lit_eq,
      matchToks_day_end hd1 hd31]
  have hv : validDate p = true := validDate_true (by omega) hy2 hm1 hm12 hd1 hdm
  have hparse : strptimeF fmtYMD (strftime p fmtYMD) = some p := by
    unfold strptimeF
    rw [hmatch]
    show (if validDate p = true then some p else none) = some p
    rw [hv]
    rfl
  simp only [normalizeDate, hstrip, if_neg hne, inputDateFormats]
  rw [firstSome_cons_none (fun fmt => strptimeF fmt (strftime p fmtYMD)) fmtDMY _ hf1,
    firstSome_cons_none (fun fmt => strptimeF fmt (strftime p fmtYMD)) fmtDMYd _ hf2,
    firstSome_cons_none (fun fmt => strptimeF fmt (strftime p fmtYMD)) fmtYMDd _ hf3,
    firstSome_cons_none (fun fmt => strptimeF fmt (strftime p fmtYMD)) fmtDMy _ hf4,
    firstSome_cons_none (fun fmt => strptimeF fmt (strftime p fmtYMD)) fmtDbY _ hf5,
    firstSome_cons_none (fun fmt => strptimeF fmt (strftime p fmtYMD)) fmtDBY _ hf6]
  rw [firstSome_cons_some (fun fmt => strptimeF fmt (strftime p fmtYMD)) fmtYMD
    [fmtMDY] p hparse]


theorem strip_strftime_MDY (p : DParts) (hm : p.m ≤ 99) :
    pyStrip (strftime p fmtMDY) = strftime p fmtMDY := by
  rw [strftime_MDY]
  refine pyStrip_eq_self_digit_ends (pad2_div_le hm) (mod10_le p.y) ?_ ?_
  · simp [pad2]
  · rw [show pad2 p.m ++ '/' :: (pad2 p.d ++ '/' :: pad4 p.y) =
        (pad2 p.m ++ '/' :: pad2 p.d ++ ['/']) ++ pad4 p.y by simp]
    exact getLastD_append_pad4 _ _ _

theorem roundtrip_MDY (p : DParts) (hd1 : 1 ≤ p.d) (hdm : p.d ≤ daysInMonth p.y p.m)
    (hm1 : 1 ≤ p.m) (hm12 : p.m ≤ 12) (hy1 : 1000 ≤ p.y) (hy2 : p.y ≤ 9999)
    (hside : 12 < p.d ∨ p.d = p.m) :
    normalizeDate (strftime p fmtMDY) fmtMDY = some (strftime p fmtMDY) := by
  have hd31 : p.d ≤ 31 := le_trans hdm (daysInMonth_le _ _)
  have hm31 : p.m ≤ 31 := by omega
  have hstrip := strip_strftime_MDY p (by omega)
  have hne : strftime p fmtMDY ≠ [] := by
    rw [strftime_MDY]
    simp [pad2]
  have hv : validDate p = true := validDate_true (by omega) hy2 hm1 hm12 hd1 hdm
  rcases hside with hgt | heq
  · have hf1 : strptimeF fmtDMY (strftime p fmtMDY) = none := by
      apply strptimeF_none_of_match
      rw [strftime_MDY]
      rw [show fmtDMY = .day :: .lit '/' :: .mon :: .lit '/' :: [.y4] from rfl]
      rw [matchToks_day_eq hm1 hm31 _ (digitFails_lit (by decide) _) _ _,
        matchToks_lit_eq]
      exact matchToks_mon_gt12 hgt hd31 _ (digitFails_lit (by decide) _) _ _
    have hf2 : strptimeF fmtDMYd (strftime p fmtMDY) = none := by
      apply strptimeF_none_of_match
      rw [strftime_MDY]
      rw [show fmtDMYd = .day :: .lit '-' :: .mon :: .lit '-' :: [.y4] from rfl]
      rw [matchToks_day_eq hm1 hm31 _ (digitFails_lit (by decide) _) _ _]
      exact matchToks_lit_ne (by decide) _ _ _
    have hf3 : strptimeF fmtYMDd (strftime p fmtMDY) = none := by
      apply strptimeF_none_of_match
      rw [strftime_MDY, pad2_cons]
      exact matchToks_y4_sep (by decide) _ _ _ _ _
    have hf4 : strptimeF fmtDMy (strftime p fmtMDY) = none := by
      apply strptimeF_none_of_match
      rw [strftime_MDY]
      rw [show fmtDMy = .day :: .lit '/' :: .mon :: .lit '/' :: [.y2] from rfl]
      rw [matchToks_day_eq hm1 hm31 _ (digitFails_lit (by decide) _) _ _,
        matchToks_lit_eq]
      exact matchToks_mon_gt12 hgt hd31 _ (digitFails_lit (by decide) _) _ _
    have hf5 : strptimeF fmtDbY (strftime p fmtMDY) = none := by
      apply strptimeF_none_of_match
      rw [strftime_MDY]
      rw [show fmtDbY = .day :: .ws :: .monAbbr :: .ws :: [.y4] from rfl]
      rw [matchToks_day_eq hm1 hm31 _ (digitFails_ws _) _ _]
      exact matchToks_ws_fail (by decide) _ _ _
    have hf6 : strptimeF fmtDBY (strftime p fmtMDY) = none := by
      apply strptimeF_none_of_match
      rw [strftime_MDY]
      rw [show fmtDBY = .day :: .ws :: .monFull :: .ws :: [.y4] from rfl]
      rw [matchToks_day_eq hm1 hm31 _ (digitFails_ws _) _ _]
      exact matchToks_ws_fail (by decide) _ _ _
    have hf7 : strptimeF fmtYMD (strftime p fmtMDY) = none := by
      apply strptimeF_none_of_match
      rw [strftime_MDY, pad2_cons]
      exact matchToks_y4_sep (by decide) _ _ _ _ _
    have hmatch : matchToks fmtMDY (strftime p fmtMDY) ⟨1, 1, 1900⟩ =
        some ⟨p.d, p.m, p.y⟩ := by
      rw [strftime_MDY]
      rw [show fmtMDY = .mon :: .lit '/' :: .day :: .lit '/' :: [.y4] from rfl]
      rw [matchToks_mon_eq hm1 hm12 _ (digitFails_lit (by decide) _) _ _,
        matchToks_lit_eq,
        matchToks_day_eq hd1 hd31 _ (digitFails_lit (by decide) _) _ _,
        matchToks_lit_eq,
        matchToks_y4_end hy2]
    have hparse : strptimeF fmtMDY (strftime p fmtMDY) = some p := by
      unfold strptimeF
      rw [hmatch]
      show (if validDate p = true then some p else none) = some p
      rw [hv]
      rfl
    simp only [normalizeDate, hstrip, if_neg hne, inputDateFormats]
    rw [firstSome_cons_none (fun fmt => strptimeF fmt (strftime p fmtMDY)) fmtDMY _ hf1,
      firstSome_cons_none (fun fmt => strptimeF fmt (strftime p fmtMDY)) fmtDMYd _ hf2,
      firstSome_cons_none (fun fmt => strptimeF fmt (strftime p fmtMDY)) fmtYMDd _ hf3,
      firstSome_cons_none (fun fmt => strptimeF fmt (strftime p fmtMDY)) fmtDMy _ hf4,
      firstSome_cons_none (fun fmt => strptimeF fmt (strftime p fmtMDY)) fmtDbY _ hf5,
      firstSome_cons_none (fun fmt => strptimeF fmt (strftime p fmtMDY)) fmtDBY _ hf6,
      firstSome_cons_none (fun fmt => strptimeF fmt (strftime p fmtMDY)) fmtYMD _ hf7]
    rw [firstSome_cons_some (fun fmt => strptimeF fmt (strftime p fmtMDY)) fmtMDY
      [] p hparse]
  · have hd12 : p.d ≤ 12 := by omega
    have hmatch : matchToks fmtDMY (strftime p fmtMDY) ⟨1, 1, 1900⟩ =
        some ⟨p.d, p.m, p.y⟩ := by
      rw [strftime_MDY]
      rw [show fmtDMY = .day :: .lit '/' :: .mon :: .lit '/' :: [.y4] from rfl]
      rw [matchToks_day_eq hm1 hm31 _ (digitFails_lit (by decide) _) _ _,
        matchToks_lit_eq,
        matchToks_mon_eq hd1 hd12 _ (digitFails_lit (by decide) _) _ _,
        matchToks_lit_eq,
        matchToks_y4_end hy2]
      rw [heq]
    have hparse : strptimeF fmtDMY (strftime p fmtMDY) = some p := by
      unfold strptimeF
      rw [hmatch]
      show (if validDate p = true then some p else none) = some p
      rw [hv]
      rfl
    simp only [normalizeDate, hstrip, if_neg hne, inputDateFormats]
    rw [firstSome_cons_some (fun fmt => strptimeF fmt (strftime p fmtMDY)) fmtDMY
      [fmtDMYd, fmtYMDd, fmtDMy, fmtDbY, fmtDBY, fmtYMD, fmtMDY] p hparse]


/-- Claim C5: date normalization round-trips — for every date expressible in
a supported input pattern, formatting it in that pattern and then normalizing
with that pattern as target yields the same string.  Corrected: the property
holds unconditionally (for four-digit years 1000–9999) only for the six
unambiguous patterns; the two-digit-year pattern `%d/%m/%y` round-trips
exactly on the pivot window 1969–2068, and the `%m/%d/%Y` pattern only when
the day exceeds 12 or equals the month, because the earlier `%d/%m/%Y` entry
of `INPUT_DATE_FORMATS` parses such strings first with day and month
swapped. -/
theorem C5_round_trip (p : DParts) (hd1 : 1 ≤ p.d) (hdm : p.d ≤ daysInMonth p.y p.m)
    (hm1 : 1 ≤ p.m) (hm12 : p.m ≤ 12) (hy1 : 1000 ≤ p.y) (hy2 : p.y ≤ 9999) :
    normalizeDate (strftime p fmtDMY) fmtDMY = some (strftime p fmtDMY) ∧
    normalizeDate (strftime p fmtDMYd) fmtDMYd = some (strftime p fmtDMYd) ∧
    normalizeDate (strftime p fmtYMDd) fmtYMDd = some (strftime p fmtYMDd) ∧
    normalizeDate (strftime p fmtDbY) fmtDbY = some (strftime p fmtDbY) ∧
    normalizeDate (strftime p fmtDBY) fmtDBY = some (strftime p fmtDBY) ∧
    normalizeDate (strftime p fmtYMD) fmtYMD = some (strftime p fmtYMD) ∧
    (1969 ≤ p.y → p.y ≤ 2068 →
      normalizeDate (strftime p fmtDMy) fmtDMy = some (strftime p fmtDMy)) ∧
    (12 < p.d ∨ p.d = p.m →
      normalizeDate (strftime p fmtMDY) fmtMDY = some (strftime p fmtMDY)) :=
  ⟨roundtrip_DMY p hd1 hdm hm1 hm12 hy1 hy2,
   roundtrip_DMYd p hd1 hdm hm1 hm12 hy1 hy2,
   roundtrip_YMDd p hd1 hdm hm1 hm12 hy1 hy2,
   roundtrip_DbY p hd1 hdm hm1 hm12 hy1 hy2,
   roundtrip_DBY p hd1 hdm hm1 hm12 hy1 hy2,
   roundtrip_YMD p hd1 hdm hm1 hm12 hy1 hy2,
   fun ha hb => roundtrip_DMy p hd1 hdm hm1 hm12 ha hb,
   fun hs => roundtrip_MDY p hd1 hdm hm1 hm12 hy1 hy2 hs⟩

/-- Witness for C5 at the concrete date 25 December 2026. -/
theorem C5_round_trip_wit :
    (1 ≤ 25 ∧ 25 ≤ daysInMonth 2026 12 ∧ 1 ≤ 12 ∧ 12 ≤ 12 ∧
      1000 ≤ 2026 ∧ 2026 ≤ 9999) ∧
    (normalizeDate (strftime ⟨25, 12, 2026⟩ fmtDMY) fmtDMY
        = some (strftime ⟨25, 12, 2026⟩ fmtDMY) ∧
      normalizeDate (strftime ⟨25, 12, 2026⟩ fmtDMYd) fmtDMYd
        = some (strftime ⟨25, 12, 2026⟩ fmtDMYd) ∧
      normalizeDate (strftime ⟨25, 12, 2026⟩ fmtYMDd) fmtYMDd
        = some (strftime ⟨25, 12, 2026⟩ fmtYMDd) ∧
      normalizeDate (strftime ⟨25, 12, 2026⟩ fmtDbY) fmtDbY
        = some (strftime ⟨25, 12, 2026⟩ fmtDbY) ∧
      normalizeDate (strftime ⟨25, 12, 2026⟩ fmtDBY) fmtDBY
        = some (strftime ⟨25, 12, 2026⟩ fmtDBY) ∧
      normalizeDate (strftime ⟨25, 12, 2026⟩ fmtYMD) fmtYMD
        = some (strftime ⟨25, 12, 2026⟩ fmtYMD) ∧
      (1969 ≤ 2026 → 2026 ≤ 2068 →
        normalizeDate (strftime ⟨25, 12, 2026⟩ fmtDMy) fmtDMy
          = some (strftime ⟨25, 12, 2026⟩ fmtDMy)) ∧
      (12 < 25 ∨ 25 = 12 →
        normalizeDate (strftime ⟨25, 12, 2026⟩ fmtMDY) fmtMDY
          = some (strftime ⟨25, 12, 2026⟩ fmtMDY))) :=
  ⟨by decide,
   C5_round_trip ⟨25, 12, 2026⟩ (by decide) (by decide) (by decide) (by decide)
     (by decide) (by decide)⟩

/-- Counterexample to the unrestricted C5 round-trip: 2 January 2026 printed
in the `%m/%d/%Y` pattern is `01/02/2026`, but normalization parses it with
the earlier `%d/%m/%Y` pattern and returns `02/01/2026`. -/
theorem C5_round_trip_cex :
    strftime ⟨2, 1, 2026⟩ fmtMDY = ("01/02/2026").toList ∧
    normalizeDate (("01/02/2026").toList) fmtMDY = some (("02/01/2026").toList) ∧
    normalizeDate (strftime ⟨2, 1, 2026⟩ fmtMDY) fmtMDY
      ≠ some (strftime ⟨2, 1, 2026⟩ fmtMDY) := by
  exact ⟨rfl, rfl, by decide⟩

end OCRSpec
